import Mathlib

/-!
Verification development for the Tiki crawl pipeline.

The repository contains two parallel pipeline scripts:
 * `src/main.py`   — referred to below as "script 1" / suffix `Main`;
 * `src/tiki_queue.py` — referred to below as "script 2" / suffix `Queue`;
plus table-DDL helpers (`tiki_product.py`, `tiki_error.py`, `connect.py`)
that carry no pipeline logic.

The embedding is shallow: Python dict values become the `PyVal` type,
the network is an explicit trace of per-attempt results, the database
tables become association lists, and each `async` function becomes a
pure Lean function from its inputs and the environment trace to its
observable outputs (return value, sequence of backoff sleeps, attempt
count).  The per-item text-cleaning core (`clean_text`'s regex body) is
out of scope per the specification's interface boundary and is carried
as an opaque parameter `core : String → String`; only the
`if not text: return ""` guard of `clean_text` is modelled.
-/

/-- Retry budget, `RETRIES = 5` in both scripts. -/
def RETRIES : Nat := 5

/-- A Python value as it occurs in the result dictionaries of both
scripts: `None`, a string, or a number (prices; modelled as `Int`,
which suffices for every claim considered here). -/
inductive PyVal where
  | vnone : PyVal
  | vstr : String → PyVal
  | vint : Int → PyVal
deriving DecidableEq

/-- Python `v is None or v == ""` on a `PyVal` (note `0 == ""` is
`False` in Python, so numbers are never "empty" here).  This is the
missing-field test of script 1 (`main.py` line 119). -/
def pyIsNoneOrEmpty : PyVal → Bool
  | PyVal.vnone => true
  | PyVal.vstr s => s = ""
  | PyVal.vint _ => false

/-- Python truthiness negation `not v`: `None`, `""` and `0` are all
falsy.  This is the missing-field test of script 2 (`tiki_queue.py`
line 139). -/
def pyFalsy : PyVal → Bool
  | PyVal.vnone => true
  | PyVal.vstr s => s = ""
  | PyVal.vint n => n = 0

/-- A raw API payload (the parsed JSON body of a 200 response): the
fields the scripts extract via `data.get(...)`, with `images` reduced
to the list of per-image `base_url` values.  A missing / null / empty
`images` key is all modelled as `[]`, which is faithful because the
scripts only test the key's truthiness before indexing. -/
structure Payload where
  name : Option String
  url_key : Option String
  price : Option Int
  description : Option String
  images : List (Option String)
deriving DecidableEq

/-- `data.get("images", [{}])[0].get("base_url") if data.get("images") else None`. -/
def imageUrlOf (p : Payload) : Option String :=
  match p.images with
  | [] => none
  | u :: _ => u

/-- `clean_text` from both scripts: `if not text: return ""`, then the
(opaque, per spec §1) regex-cleaning core. -/
def clean_text (core : String → String) : Option String → String
  | none => ""
  | some s => if s = "" then "" else core s

def optStr : Option String → PyVal
  | none => PyVal.vnone
  | some s => PyVal.vstr s

def optInt : Option Int → PyVal
  | none => PyVal.vnone
  | some n => PyVal.vint n

/-- The result dictionary both scripts build on a 200 response, as a
record.  All seven keys of the Python dict appear, `id` first. -/
structure PyRecord where
  id : Int
  name : PyVal
  url_key : PyVal
  price : PyVal
  description : PyVal
  image_url : PyVal
  missing_fields : PyVal
deriving DecidableEq

/-- The six-entry `result.items()` view (before `missing_fields` is
added), in the dict's insertion order — exactly the order the Python
list comprehension iterates. -/
def preItems (pid : Int) (name url_key price description image_url : PyVal) :
    List (String × PyVal) :=
  [("id", PyVal.vint pid), ("name", name), ("url_key", url_key),
   ("price", price), ("description", description), ("image_url", image_url)]

/-- `[k for k, v in items if k != "id" and pred(v)]`. -/
def missingOf (items : List (String × PyVal)) (pred : PyVal → Bool) : List String :=
  (items.filter (fun kv => kv.1 ≠ "id" && pred kv.2)).map (fun kv => kv.1)

/-- Script 1's 200-response record (`main.py` lines 111–121):
extraction, cleaning, and `missing_fields` via the
`v is None or v == ""` test, joined with commas (`",".join(missing) if
missing else ""` — the guard is redundant since joining `[]` yields
`""`). -/
def buildRecordMain (core : String → String) (pid : Int) (p : Payload) : PyRecord :=
  let name := PyVal.vstr (clean_text core p.name)
  let url_key := optStr p.url_key
  let price := optInt p.price
  let description := PyVal.vstr (clean_text core p.description)
  let image_url := optStr (imageUrlOf p)
  let missing := missingOf (preItems pid name url_key price description image_url) pyIsNoneOrEmpty
  ⟨pid, name, url_key, price, description, image_url,
    PyVal.vstr (String.intercalate "," missing)⟩

/-- Script 2's 200-response record (`tiki_queue.py` lines 131–141):
same extraction, but `missing_fields` uses Python falsiness (`not v`). -/
def buildRecordQueue (core : String → String) (pid : Int) (p : Payload) : PyRecord :=
  let name := PyVal.vstr (clean_text core p.name)
  let url_key := optStr p.url_key
  let price := optInt p.price
  let description := PyVal.vstr (clean_text core p.description)
  let image_url := optStr (imageUrlOf p)
  let missing := missingOf (preItems pid name url_key price description image_url) pyFalsy
  ⟨pid, name, url_key, price, description, image_url,
    PyVal.vstr (String.intercalate "," missing)⟩

/-- Script 1's fall-through return value
`{field: None if field != "id" else pid for field in FIELDS}`
(`main.py` line 129): every non-id field `None`, `missing_fields`
included. -/
def sentinelMain (pid : Int) : PyRecord :=
  ⟨pid, PyVal.vnone, PyVal.vnone, PyVal.vnone, PyVal.vnone, PyVal.vnone, PyVal.vnone⟩

/-- Script 2's 404 error record (`tiki_queue.py` lines 169–177). -/
def errRecordQueue (pid : Int) : PyRecord :=
  ⟨pid, PyVal.vnone, PyVal.vnone, PyVal.vnone, PyVal.vnone, PyVal.vnone,
    PyVal.vstr "all_fields"⟩

/-- Script 1's error classifier (`main.py` line 142):
`all(result[k] is None for k in FIELDS if k != "id")` — note it ranges
over all of `FIELDS`, so `missing_fields` is included in the test. -/
def allNoneNonId (r : PyRecord) : Bool :=
  r.name == PyVal.vnone && r.url_key == PyVal.vnone && r.price == PyVal.vnone &&
  r.description == PyVal.vnone && r.image_url == PyVal.vnone &&
  r.missing_fields == PyVal.vnone

/-! ## The network environment and the two fetch loops -/

/-- What one HTTP attempt yields, from the fetch loop's point of view:
a 200 with a parsed body, a non-200 status code, or an exception raised
inside the `try` block (transport fault, timeout, body-parse failure).
By construction `status c` only arises with `c ≠ 200`. -/
inductive AttemptResult where
  | ok : Payload → AttemptResult
  | status : Nat → AttemptResult
  | exn : AttemptResult
deriving DecidableEq

/-- `resp.status in (429, 500, 502, 503, 504)`. -/
def transient (c : Nat) : Bool :=
  decide (c ∈ [429, 500, 502, 503, 504])

/-- Retry loop of script 1's `fetch_product` (`main.py` lines 106–129),
`for attempt in range(RETRIES)` with `attempt` 0-based.  Arguments:
current attempt index, remaining loop iterations, remaining environment
trace.  Returns the dictionary handed back to the caller, the list of
backoff sleep durations in order, and whether the fall-through failure
path was taken (i.e. whether `retry_counter` was bumped and the all-None
sentinel returned).  A transient status sleeps `2*(attempt+1)`; an
exception is swallowed by `except Exception: pass` with **no** sleep;
any other non-200 status breaks out of the loop at once. -/
def fetchGoMain (core : String → String) (pid : Int) :
    Nat → Nat → List AttemptResult → PyRecord × List Nat × Bool
  | _, 0, _ => (sentinelMain pid, [], true)
  | _, _ + 1, [] => (sentinelMain pid, [], true)
  | attempt, fuel + 1, r :: rest =>
    match r with
    | AttemptResult.ok p => (buildRecordMain core pid p, [], false)
    | AttemptResult.status c =>
      if transient c then
        let res := fetchGoMain core pid (attempt + 1) fuel rest
        (res.1, 2 * (attempt + 1) :: res.2.1, res.2.2)
      else
        (sentinelMain pid, [], true)
    | AttemptResult.exn => fetchGoMain core pid (attempt + 1) fuel rest

/-- Script 1's `fetch_product`: run the loop from attempt 0 with the
full retry budget. -/
def fetch_product_main (core : String → String) (pid : Int)
    (trace : List AttemptResult) : PyRecord × List Nat × Bool :=
  fetchGoMain core pid 0 RETRIES trace

/-- How script 2's `fetch_product` resolves: a parsed record, a raised
`ProductNotFoundError`, or `None` (loop fell through or a hard non-200
status broke it). -/
inductive FetchOutcomeQueue where
  | success : PyRecord → FetchOutcomeQueue
  | notFound : FetchOutcomeQueue
  | exhausted : FetchOutcomeQueue
deriving DecidableEq

/-- Retry loop of script 2's `fetch_product` (`tiki_queue.py` lines
126–154), `for attempt in range(1, RETRIES+1)` with `attempt` 1-based.
Returns the outcome, the backoff sleeps in order, and the number of
attempts executed.  A 404 raises immediately; a transient status sleeps
`2*attempt`; any other exception is logged and also sleeps `2*attempt`
(line 153); any other non-200 status logs and breaks. -/
def fetchGoQueue (core : String → String) (pid : Int) :
    Nat → Nat → List AttemptResult → FetchOutcomeQueue × List Nat × Nat
  | _, 0, _ => (FetchOutcomeQueue.exhausted, [], 0)
  | _, _ + 1, [] => (FetchOutcomeQueue.exhausted, [], 0)
  | attempt, fuel + 1, r :: rest =>
    match r with
    | AttemptResult.ok p => (FetchOutcomeQueue.success (buildRecordQueue core pid p), [], 1)
    | AttemptResult.status c =>
      if c = 404 then
        (FetchOutcomeQueue.notFound, [], 1)
      else if transient c then
        let res := fetchGoQueue core pid (attempt + 1) fuel rest
        (res.1, 2 * attempt :: res.2.1, res.2.2 + 1)
      else
        (FetchOutcomeQueue.exhausted, [], 1)
    | AttemptResult.exn =>
      let res := fetchGoQueue core pid (attempt + 1) fuel rest
      (res.1, 2 * attempt :: res.2.1, res.2.2 + 1)

/-- Script 2's `fetch_product`: run the loop from attempt 1 with the
full retry budget. -/
def fetch_product_queue (core : String → String) (pid : Int)
    (trace : List AttemptResult) : FetchOutcomeQueue × List Nat × Nat :=
  fetchGoQueue core pid 1 RETRIES trace

/-! ## Work queue and tables -/

/-- Work-queue state: one of `pending`, `done`, `error`. -/
inductive Status where
  | pending : Status
  | done : Status
  | error : Status
deriving DecidableEq

/-- The `tiki_queue` table as an association list in insertion order:
`(id, status, last_error)` rows. -/
abbrev Queue := List (Int × Status × Option String)

/-- A success/error table (`tiki_product` / `tiki_error`) as a list of
rows in insertion order, keyed by `id`. -/
abbrev Table := List PyRecord

/-- `INSERT INTO tiki_queue (id, status) VALUES ($1, 'pending') ON
CONFLICT (id) DO NOTHING` for one id (script 1; script 2's version
relies on the column default `'pending'`, same effect). -/
def insertIgnore (q : Queue) (pid : Int) : Queue :=
  if q.any (fun e => e.1 = pid) then q else q ++ [(pid, Status.pending, none)]

/-- `init_queue`: bulk insert-if-absent of the id list (both scripts;
`executemany` runs the statement once per id, in order). -/
def init_queue (q : Queue) (ids : List Int) : Queue :=
  ids.foldl insertIgnore q

/-- Script 1's outstanding-work selection (`main.py` lines 62–65):
`SELECT id FROM tiki_queue WHERE status='pending'`. -/
def fetch_pending_ids (q : Queue) : List Int :=
  (q.filter (fun e => e.2.1 = Status.pending)).map (fun e => e.1)

/-- Script 2's outstanding-work selection (`tiki_queue.py` lines
73–78): `SELECT id FROM tiki_queue WHERE status='pending' OR
status='error'`. -/
def fetch_pending_or_error_ids (q : Queue) : List Int :=
  (q.filter (fun e => e.2.1 = Status.pending ∨ e.2.1 = Status.error)).map (fun e => e.1)

/-- `update_queue_status` (both scripts): early return on an empty id
list, else set `status` and `last_error` on every listed id
(`last_error=NULL` when no message is given). -/
def update_queue_status (q : Queue) (ids : List Int) (st : Status)
    (msg : Option String) : Queue :=
  if ids.isEmpty then q
  else q.map (fun e => if e.1 ∈ ids then (e.1, st, msg) else e)

/-- The status and last_error of the first row for an id, if any. -/
def statusOf : Queue → Int → Option (Status × Option String)
  | [], _ => none
  | e :: rest, pid => if e.1 = pid then some e.2 else statusOf rest pid

/-- One `INSERT ... ON CONFLICT (id) DO UPDATE SET <every non-key
column> = EXCLUDED.<column>`: replace the conflicting row entirely
(the key is unchanged, all other columns overwritten), else append. -/
def upsertOne (t : Table) (r : PyRecord) : Table :=
  if t.any (fun x => x.id = r.id) then
    t.map (fun x => if x.id = r.id then r else x)
  else
    t ++ [r]

/-- `insert_batch` (`main.py` lines 83–100) and `insert_batch_to_db`
(`tiki_queue.py` lines 95–120): early return on an empty record list,
else one upsert per record in order (`executemany`). -/
def insert_batch (t : Table) (records : List PyRecord) : Table :=
  if records.isEmpty then t else records.foldl upsertOne t

/-- `insert_batch_to_db` has the same contract as `insert_batch` (the
`CREATE TABLE IF NOT EXISTS` preamble is schema provisioning, outside
this model). -/
def insert_batch_to_db (t : Table) (records : List PyRecord) : Table :=
  insert_batch t records

/-- All ids of a table, in row order. -/
def idsOf (t : Table) : List Int :=
  t.map (fun r => r.id)

/-- The rows of a table holding an id (with unique keys: at most one). -/
def rowsWithId (t : Table) (pid : Int) : Table :=
  t.filter (fun r => r.id = pid)

/-! ## Batch orchestration -/

/-- Combined durable state: work queue, `tiki_product`, `tiki_error`. -/
structure PState where
  queue : Queue
  product : Table
  errorT : Table
deriving DecidableEq

/-- Script 1's per-id fetch result within a batch, under environment
`env` (the trace of attempt results the network yields for each id). -/
def resultMain (core : String → String) (env : Int → List AttemptResult)
    (pid : Int) : PyRecord :=
  (fetch_product_main core pid (env pid)).1

/-- Script 1's `process_batch` good list (`main.py` lines 140–145):
every returned dict is truthy (it is never empty), so a result goes to
`good_records` exactly when the all-None test fails.  `as_completed`
yields results in completion order; the model processes them in batch
order — the claims below only concern the resulting sets and the
per-id rows, which completion order cannot affect since queue ids are
distinct within a batch. -/
def goodMain (core : String → String) (env : Int → List AttemptResult)
    (batch : List Int) : List PyRecord :=
  (batch.map (resultMain core env)).filter (fun r => !allNoneNonId r)

/-- Script 1's `process_batch` error list: results whose every non-id
field is `None`. -/
def errMain (core : String → String) (env : Int → List AttemptResult)
    (batch : List Int) : List PyRecord :=
  (batch.map (resultMain core env)).filter (fun r => allNoneNonId r)

/-- One batch of script 1's `main` (`main.py` lines 165–173): insert
good records into `tiki_product`, error records into `tiki_error`, mark
good ids `done`, then error ids `error` with `"Failed after retries"`. -/
def runBatchMain (core : String → String) (env : Int → List AttemptResult)
    (st : PState) (batch : List Int) : PState :=
  let good := goodMain core env batch
  let err := errMain core env batch
  { queue := update_queue_status
      (update_queue_status st.queue (good.map (fun r => r.id)) Status.done none)
      (err.map (fun r => r.id)) Status.error (some "Failed after retries"),
    product := insert_batch st.product good,
    errorT := insert_batch st.errorT err }

/-- Script 2's per-id fetch outcome within a batch. -/
def outcomeQueue (core : String → String) (env : Int → List AttemptResult)
    (pid : Int) : FetchOutcomeQueue :=
  (fetch_product_queue core pid (env pid)).1

/-- Script 2's `process_batch` good list (`tiki_queue.py` lines
163–167): `r = await coro; if r: good_records.append(r)` — a returned
dict is always truthy, a `None` (exhausted/hard-failure) return is
silently dropped. -/
def goodQueue (core : String → String) (env : Int → List AttemptResult)
    (batch : List Int) : List PyRecord :=
  batch.filterMap (fun pid =>
    match outcomeQueue core env pid with
    | FetchOutcomeQueue.success r => some r
    | _ => none)

/-- Script 2's `process_batch` error-record list: one all-null record
with `missing_fields = "all_fields"` per raised `ProductNotFoundError`. -/
def errRecsQueue (core : String → String) (env : Int → List AttemptResult)
    (batch : List Int) : List PyRecord :=
  batch.filterMap (fun pid =>
    match outcomeQueue core env pid with
    | FetchOutcomeQueue.notFound => some (errRecordQueue pid)
    | _ => none)

/-- Script 2's `error_ids` list: the ids whose fetch raised
`ProductNotFoundError`. -/
def errIdsQueue (core : String → String) (env : Int → List AttemptResult)
    (batch : List Int) : List Int :=
  batch.filter (fun pid => outcomeQueue core env pid = FetchOutcomeQueue.notFound)

/-- One batch of script 2's `process_batch` (`tiki_queue.py` lines
182–186): insert good records into `tiki_product`, 404 records into
`tiki_error`, mark good ids `done`, then 404 ids `error` with
`"404 Not Found"`.  Ids whose fetch returned `None` are not touched at
all. -/
def runBatchQueue (core : String → String) (env : Int → List AttemptResult)
    (st : PState) (batch : List Int) : PState :=
  { queue := update_queue_status
      (update_queue_status st.queue ((goodQueue core env batch).map (fun r => r.id))
        Status.done none)
      (errIdsQueue core env batch) Status.error (some "404 Not Found"),
    product := insert_batch_to_db st.product (goodQueue core env batch),
    errorT := insert_batch_to_db st.errorT (errRecsQueue core env batch) }

/-- One full run of script 2 when the outstanding selection fits in a
single batch (`BATCH_SIZE = 5000`): select pending-or-error ids, then
process them as one batch. -/
def runOnceQueue (core : String → String) (env : Int → List AttemptResult)
    (st : PState) : PState :=
  runBatchQueue core env st (fetch_pending_or_error_ids st.queue)

/-- An attempt result the specification calls transient: a retryable
HTTP status or a transport-level exception. -/
def isTransientStep : AttemptResult → Bool
  | AttemptResult.ok _ => false
  | AttemptResult.status c => transient c
  | AttemptResult.exn => true

/-- Stated from the claim's wording (C8 / spec §4.3), for comparison
with the code's computation: the comma-joined names of exactly those
non-id fields whose value is null or empty after extraction (a numeric
price — even `0` — is missing only when null), in the fields' declared
order, and `""` when no field is missing. -/
def claimMissingFields (name : String) (url_key : Option String) (price : Option Int)
    (description : String) (image_url : Option String) : String :=
  String.intercalate "," (
    (if name = "" then ["name"] else []) ++
    (if url_key = none ∨ url_key = some "" then ["url_key"] else []) ++
    (if price = none then ["price"] else []) ++
    (if description = "" then ["description"] else []) ++
    (if image_url = none ∨ image_url = some "" then ["image_url"] else []))

/-- The same field-name join but with Python falsiness as the test: a
null price *or a price of 0* counts as missing.  This is what script
2's `not v` test computes. -/
def falsyMissingFields (name : String) (url_key : Option String) (price : Option Int)
    (description : String) (image_url : Option String) : String :=
  String.intercalate "," (
    (if name = "" then ["name"] else []) ++
    (if url_key = none ∨ url_key = some "" then ["url_key"] else []) ++
    (if price = none ∨ price = some 0 then ["price"] else []) ++
    (if description = "" then ["description"] else []) ++
    (if image_url = none ∨ image_url = some "" then ["image_url"] else []))

/-! ## Record-shape lemmas -/

theorem buildRecordMain_id (core : String → String) (pid : Int) (p : Payload) :
    (buildRecordMain core pid p).id = pid := rfl

theorem buildRecordQueue_id (core : String → String) (pid : Int) (p : Payload) :
    (buildRecordQueue core pid p).id = pid := rfl

theorem allNoneNonId_buildRecordMain (core : String → String) (pid : Int) (p : Payload) :
    allNoneNonId (buildRecordMain core pid p) = false := by
  simp [allNoneNonId, buildRecordMain]

theorem allNoneNonId_sentinelMain (pid : Int) :
    allNoneNonId (sentinelMain pid) = true := rfl

/-! ## Shape of script 1's fetch loop -/

theorem fetchGoMain_shape (core : String → String) (pid : Int) :
    ∀ (tr : List AttemptResult) (attempt fuel : Nat),
      (fetchGoMain core pid attempt fuel tr =
        (sentinelMain pid, (fetchGoMain core pid attempt fuel tr).2.1, true)) ∨
      (∃ p, fetchGoMain core pid attempt fuel tr =
        (buildRecordMain core pid p, (fetchGoMain core pid attempt fuel tr).2.1, false)) := by
  intro tr
  induction tr with
  | nil =>
    intro attempt fuel
    cases fuel <;> simp [fetchGoMain]
  | cons r rest ih =>
    intro attempt fuel
    cases fuel with
    | zero => simp [fetchGoMain]
    | succ f =>
      cases r with
      | ok p => right; exact ⟨p, by simp [fetchGoMain]⟩
      | status c =>
        by_cases hc : transient c
        · rcases ih (attempt + 1) f with h | ⟨p, h⟩
          · left; simp [fetchGoMain, hc]
            constructor
            · exact congrArg (fun x => x.1) h ▸ congrArg Prod.fst h
            · exact congrArg (fun x => x.2.2) h
          · right; refine ⟨p, ?_⟩
            simp [fetchGoMain, hc]
            exact ⟨congrArg Prod.fst h, congrArg (fun x => x.2.2) h⟩
        · left; simp [fetchGoMain, hc]
      | exn =>
        simpa [fetchGoMain] using ih (attempt + 1) f

theorem fetch_product_main_id (core : String → String) (pid : Int)
    (tr : List AttemptResult) : (fetch_product_main core pid tr).1.id = pid := by
  rcases fetchGoMain_shape core pid tr 0 RETRIES with h | ⟨p, h⟩ <;>
    simpa [fetch_product_main] using congrArg (fun x => x.1.id) h

theorem fetch_product_main_flag (core : String → String) (pid : Int)
    (tr : List AttemptResult) :
    ((fetch_product_main core pid tr).2.2 = true →
      (fetch_product_main core pid tr).1 = sentinelMain pid) ∧
    ((fetch_product_main core pid tr).2.2 = false →
      ∃ p, (fetch_product_main core pid tr).1 = buildRecordMain core pid p) := by
  rcases fetchGoMain_shape core pid tr 0 RETRIES with h | ⟨p, h⟩
  · constructor
    · intro _; exact congrArg (fun x => x.1) h
    · intro hf
      have := congrArg (fun x => x.2.2) h
      simp [fetch_product_main] at hf this
      rw [hf] at this; cases this
  · constructor
    · intro ht
      have := congrArg (fun x => x.2.2) h
      simp [fetch_product_main] at ht this
      rw [ht] at this; cases this
    · intro _; exact ⟨p, congrArg (fun x => x.1) h⟩

theorem allNoneNonId_resultMain_iff (core : String → String)
    (env : Int → List AttemptResult) (pid : Int) :
    allNoneNonId (resultMain core env pid) = true ↔
      resultMain core env pid = sentinelMain pid := by
  constructor
  · intro hall
    rcases fetchGoMain_shape core pid (env pid) 0 RETRIES with h | ⟨p, h⟩
    · exact congrArg (fun x => x.1) h
    · have h1 : resultMain core env pid = buildRecordMain core pid p :=
        congrArg (fun x => x.1) h
      rw [h1, allNoneNonId_buildRecordMain] at hall; cases hall
  · intro h; rw [h]; exact allNoneNonId_sentinelMain pid

theorem resultMain_id (core : String → String) (env : Int → List AttemptResult)
    (pid : Int) : (resultMain core env pid).id = pid :=
  fetch_product_main_id core pid (env pid)

/-! ## Shape of script 2's fetch loop -/

theorem fetchGoQueue_success_shape (core : String → String) (pid : Int) :
    ∀ (tr : List AttemptResult) (attempt fuel : Nat) (r : PyRecord),
      (fetchGoQueue core pid attempt fuel tr).1 = FetchOutcomeQueue.success r →
      ∃ p, r = buildRecordQueue core pid p := by
  intro tr
  induction tr with
  | nil =>
    intro attempt fuel r h
    cases fuel <;> simp [fetchGoQueue] at h
  | cons a rest ih =>
    intro attempt fuel r h
    cases fuel with
    | zero => simp [fetchGoQueue] at h
    | succ f =>
      cases a with
      | ok p =>
        simp [fetchGoQueue] at h
        exact ⟨p, h.symm⟩
      | status c =>
        by_cases h404 : c = 404
        · simp [fetchGoQueue, h404] at h
        · by_cases hc : transient c
          · simp [fetchGoQueue, h404, hc] at h
            exact ih (attempt + 1) f r h
          · simp [fetchGoQueue, h404, hc] at h
      | exn =>
        simp [fetchGoQueue] at h
        exact ih (attempt + 1) f r h

theorem outcomeQueue_success_id (core : String → String)
    (env : Int → List AttemptResult) (pid : Int) (r : PyRecord)
    (h : outcomeQueue core env pid = FetchOutcomeQueue.success r) : r.id = pid := by
  obtain ⟨p, hp⟩ :=
    fetchGoQueue_success_shape core pid (env pid) 1 RETRIES r h
  rw [hp]; rfl

theorem fetchGoQueue_sleeps_bounds (core : String → String) (pid : Int) :
    ∀ (tr : List AttemptResult) (attempt fuel : Nat),
      List.Chain' (· ≤ ·) (fetchGoQueue core pid attempt fuel tr).2.1 ∧
      (∀ x ∈ (fetchGoQueue core pid attempt fuel tr).2.1, 2 * attempt ≤ x) := by
  intro tr
  induction tr with
  | nil =>
    intro attempt fuel
    cases fuel <;> simp [fetchGoQueue]
  | cons a rest ih =>
    intro attempt fuel
    cases fuel with
    | zero => simp [fetchGoQueue]
    | succ f =>
      cases a with
      | ok p => simp [fetchGoQueue]
      | status c =>
        by_cases h404 : c = 404
        · simp [fetchGoQueue, h404]
        · by_cases hc : transient c
          · have hrec := ih (attempt + 1) f
            simp only [fetchGoQueue, h404, hc, if_false, if_true]
            constructor
            · apply List.chain'_cons'.2
              refine ⟨fun y hy => ?_, hrec.1⟩
              have := hrec.2 y (List.mem_of_mem_head? hy)
              omega
            · intro x hx
              rcases List.mem_cons.1 hx with h | h
              · omega
              · have := hrec.2 x h; omega
          · simp [fetchGoQueue, h404, hc]
      | exn =>
        have hrec := ih (attempt + 1) f
        simp only [fetchGoQueue]
        constructor
        · apply List.chain'_cons'.2
          refine ⟨fun y hy => ?_, hrec.1⟩
          have := hrec.2 y (List.mem_of_mem_head? hy)
          omega
        · intro x hx
          rcases List.mem_cons.1 hx with h | h
          · omega
          · have := hrec.2 x h; omega

theorem fetchGoQueue_attempts_le (core : String → String) (pid : Int) :
    ∀ (tr : List AttemptResult) (attempt fuel : Nat),
      (fetchGoQueue core pid attempt fuel tr).2.2 ≤ fuel := by
  intro tr
  induction tr with
  | nil =>
    intro attempt fuel
    cases fuel <;> simp [fetchGoQueue]
  | cons a rest ih =>
    intro attempt fuel
    cases fuel with
    | zero => simp [fetchGoQueue]
    | succ f =>
      cases a with
      | ok p => simp [fetchGoQueue]
      | status c =>
        by_cases h404 : c = 404
        · simp [fetchGoQueue, h404]
        · by_cases hc : transient c
          · have := ih (attempt + 1) f
            simp only [fetchGoQueue, h404, hc, if_false, if_true]
            omega
          · simp [fetchGoQueue, h404, hc]
      | exn =>
        have := ih (attempt + 1) f
        simp only [fetchGoQueue]
        omega

theorem fetchGoQueue_all_transient (core : String → String) (pid : Int) :
    ∀ (fuel : Nat) (tr : List AttemptResult) (attempt : Nat),
      (∀ r ∈ tr, isTransientStep r = true) → fuel ≤ tr.length →
      fetchGoQueue core pid attempt fuel tr =
        (FetchOutcomeQueue.exhausted,
         (List.range fuel).map (fun i => 2 * (attempt + i)), fuel) := by
  intro fuel
  induction fuel with
  | zero =>
    intro tr attempt _ _
    simp [fetchGoQueue]
  | succ f ih =>
    intro tr attempt htr hlen
    cases tr with
    | nil => simp at hlen
    | cons a rest =>
      have ha : isTransientStep a = true := htr a (List.mem_cons_self a rest)
      have hrest : ∀ r ∈ rest, isTransientStep r = true :=
        fun r hr => htr r (List.mem_cons_of_mem a hr)
      have hlen' : f ≤ rest.length := by simpa using hlen
      have hrec := ih rest (attempt + 1) hrest hlen'
      have hrange : (List.range (f + 1)).map (fun i => 2 * (attempt + i)) =
          2 * attempt :: (List.range f).map (fun i => 2 * ((attempt + 1) + i)) := by
        rw [List.range_succ_eq_map, List.map_cons, List.map_map]
        refine congrArg₂ List.cons (by omega) ?_
        refine List.map_congr_left (fun i _ => ?_)
        simp only [Function.comp_apply]
        omega
      cases a with
      | ok p => simp [isTransientStep] at ha
      | status c =>
        have hc : transient c = true := ha
        have h404 : ¬ c = 404 := by
          intro h; rw [h] at hc; simp [transient] at hc
        rw [hrange]
        simp [fetchGoQueue, h404, hc, hrec]
      | exn =>
        rw [hrange]
        simp [fetchGoQueue, hrec]

theorem fetchGoQueue_hard_abort (core : String → String) (pid : Int)
    (c : Nat) (tr : List AttemptResult) (attempt fuel : Nat)
    (h404 : c ≠ 404) (hc : transient c = false) :
    fetchGoQueue core pid attempt (fuel + 1) (AttemptResult.status c :: tr) =
      (FetchOutcomeQueue.exhausted, [], 1) := by
  simp [fetchGoQueue, h404, hc]

theorem fetchGoQueue_notFound (core : String → String) (pid : Int)
    (tr : List AttemptResult) (attempt fuel : Nat) :
    fetchGoQueue core pid attempt (fuel + 1) (AttemptResult.status 404 :: tr) =
      (FetchOutcomeQueue.notFound, [], 1) := by
  simp [fetchGoQueue]

/-! ## Work-queue lemmas -/

theorem statusOf_append_of_isSome (q ext : Queue) (pid : Int)
    (h : (statusOf q pid).isSome = true) :
    statusOf (q ++ ext) pid = statusOf q pid := by
  induction q with
  | nil => simp [statusOf] at h
  | cons e rest ih =>
    by_cases he : e.1 = pid
    · simp [statusOf, he]
    · simp only [statusOf, he, if_false, List.cons_append] at h ⊢
      simp [statusOf, he]
      exact ih h

theorem statusOf_append_single_ne (q : Queue) (pid x : Int)
    (st : Status) (msg : Option String) (hne : x ≠ pid) :
    statusOf (q ++ [(x, st, msg)]) pid = statusOf q pid := by
  induction q with
  | nil => simp [statusOf, hne]
  | cons e rest ih =>
    by_cases he : e.1 = pid
    · simp [statusOf, he]
    · simp [statusOf, he, ih]

theorem statusOf_append_single_self (q : Queue) (pid : Int)
    (st : Status) (msg : Option String) (h : statusOf q pid = none) :
    statusOf (q ++ [(pid, st, msg)]) pid = some (st, msg) := by
  induction q with
  | nil => simp [statusOf]
  | cons e rest ih =>
    by_cases he : e.1 = pid
    · simp [statusOf, he] at h
    · simp only [statusOf, he, if_false, List.cons_append] at h ⊢
      simp [statusOf, he]
      exact ih h

theorem any_eq_isSome_statusOf (q : Queue) (pid : Int) :
    (q.any (fun e => e.1 = pid)) = (statusOf q pid).isSome := by
  induction q with
  | nil => simp [statusOf]
  | cons e rest ih =>
    by_cases he : e.1 = pid
    · simp [statusOf, he]
    · simp [statusOf, he, ih]

theorem init_queue_append (ids : List Int) :
    ∀ q : Queue, ∃ ext : Queue, init_queue q ids = q ++ ext := by
  induction ids with
  | nil => intro q; exact ⟨[], by simp [init_queue]⟩
  | cons x rest ih =>
    intro q
    have h1 : ∃ e1 : Queue, insertIgnore q x = q ++ e1 := by
      by_cases hx : q.any (fun e => e.1 = x)
      · exact ⟨[], by simp [insertIgnore, hx]⟩
      · exact ⟨[(x, Status.pending, none)], by simp [insertIgnore, hx]⟩
    obtain ⟨e1, he1⟩ := h1
    obtain ⟨e2, he2⟩ := ih (insertIgnore q x)
    refine ⟨e1 ++ e2, ?_⟩
    have : init_queue q (x :: rest) = init_queue (insertIgnore q x) rest := rfl
    rw [this, he2, he1, List.append_assoc]

theorem statusOf_init_of_isSome (q : Queue) (ids : List Int) (pid : Int)
    (h : (statusOf q pid).isSome = true) :
    statusOf (init_queue q ids) pid = statusOf q pid := by
  obtain ⟨ext, hext⟩ := init_queue_append ids q
  rw [hext]
  exact statusOf_append_of_isSome q ext pid h

theorem statusOf_init_of_absent (ids : List Int) :
    ∀ (q : Queue) (pid : Int), pid ∈ ids → statusOf q pid = none →
      statusOf (init_queue q ids) pid = some (Status.pending, none) := by
  induction ids with
  | nil => intro q pid h; simp at h
  | cons x rest ih =>
    intro q pid hmem habs
    have hstep : init_queue q (x :: rest) = init_queue (insertIgnore q x) rest := rfl
    rw [hstep]
    by_cases hx : x = pid
    · subst hx
      have hany : (q.any (fun e => e.1 = x)) = false := by
        rw [any_eq_isSome_statusOf, habs]; rfl
      have hq' : insertIgnore q x = q ++ [(x, Status.pending, none)] := by
        simp [insertIgnore, hany]
      have hsome : statusOf (insertIgnore q x) x = some (Status.pending, none) := by
        rw [hq']; exact statusOf_append_single_self q x Status.pending none habs
      rw [statusOf_init_of_isSome _ rest x (by rw [hsome]; rfl)]
      exact hsome
    · have hmem' : pid ∈ rest := by
        rcases List.mem_cons.1 hmem with h | h
        · exact absurd h.symm hx
        · exact h
      have habs' : statusOf (insertIgnore q x) pid = none := by
        by_cases hany : q.any (fun e => e.1 = x)
        · simpa [insertIgnore, hany] using habs
        · rw [show insertIgnore q x = q ++ [(x, Status.pending, none)] by
            simp [insertIgnore, hany]]
          rw [statusOf_append_single_ne q pid x Status.pending none hx]
          exact habs
      exact ih (insertIgnore q x) pid hmem' habs'

theorem init_queue_of_all_present (ids : List Int) :
    ∀ q : Queue, (∀ pid ∈ ids, (statusOf q pid).isSome = true) →
      init_queue q ids = q := by
  induction ids with
  | nil => intro q _; rfl
  | cons x rest ih =>
    intro q h
    have hx : (q.any (fun e => e.1 = x)) = true := by
      rw [any_eq_isSome_statusOf]
      exact h x (List.mem_cons_self x rest)
    have hstep : init_queue q (x :: rest) = init_queue (insertIgnore q x) rest := rfl
    have hins : insertIgnore q x = q := by simp [insertIgnore, hx]
    rw [hstep, hins]
    exact ih q (fun pid hpid => h pid (List.mem_cons_of_mem x hpid))

theorem statusOf_init_isSome (q : Queue) (ids : List Int) (pid : Int)
    (hmem : pid ∈ ids) :
    (statusOf (init_queue q ids) pid).isSome = true := by
  cases hq : statusOf q pid with
  | none =>
    rw [statusOf_init_of_absent ids q pid hmem hq]; rfl
  | some v =>
    rw [statusOf_init_of_isSome q ids pid (by rw [hq]; rfl), hq]; rfl

theorem init_queue_idem (q : Queue) (ids : List Int) :
    init_queue (init_queue q ids) ids = init_queue q ids :=
  init_queue_of_all_present ids (init_queue q ids)
    (fun pid hpid => statusOf_init_isSome q ids pid hpid)

theorem statusOf_map_setStatus (ids : List Int) (st : Status)
    (msg : Option String) (pid : Int) :
    ∀ q : Queue,
      statusOf (q.map (fun e => if e.1 ∈ ids then (e.1, st, msg) else e)) pid =
        if pid ∈ ids then (statusOf q pid).map (fun _ => (st, msg))
        else statusOf q pid := by
  intro q
  induction q with
  | nil => by_cases hmem : pid ∈ ids <;> simp [statusOf, hmem]
  | cons e rest ih =>
    by_cases he : e.1 = pid
    · by_cases hmem : pid ∈ ids
      · have he' : e.1 ∈ ids := he ▸ hmem
        simp [statusOf, he, hmem, he']
      · have he' : e.1 ∉ ids := he ▸ hmem
        simp [statusOf, he, hmem, he']
    · by_cases hein : e.1 ∈ ids <;> simp [statusOf, he, hein, ih]

theorem statusOf_update (q : Queue) (ids : List Int) (st : Status)
    (msg : Option String) (pid : Int) :
    statusOf (update_queue_status q ids st msg) pid =
      if pid ∈ ids then (statusOf q pid).map (fun _ => (st, msg))
      else statusOf q pid := by
  by_cases hids : ids.isEmpty
  · have : pid ∉ ids := by
      cases ids with
      | nil => simp
      | cons a l => simp at hids
    simp [update_queue_status, hids, this]
  · simp only [update_queue_status, hids, if_false]
    exact statusOf_map_setStatus ids st msg pid q

theorem statusOf_update_isSome (q : Queue) (ids : List Int) (st : Status)
    (msg : Option String) (pid : Int) (h : (statusOf q pid).isSome = true) :
    ((statusOf (update_queue_status q ids st msg) pid)).isSome = true := by
  rw [statusOf_update]
  by_cases hmem : pid ∈ ids
  · simp only [hmem, if_true]
    cases hsq : statusOf q pid with
    | none => rw [hsq] at h; cases h
    | some v => simp
  · simpa [hmem] using h

/-! ## Table (upsert) lemmas -/

theorem upsertOne_mem_self (t : Table) (r : PyRecord) : r ∈ upsertOne t r := by
  by_cases h : t.any (fun x => x.id = r.id)
  · simp only [upsertOne, h, if_true]
    rcases List.any_eq_true.1 h with ⟨x, hx, hid⟩
    simp only [decide_eq_true_eq] at hid
    refine List.mem_map.2 ⟨x, hx, ?_⟩
    simp [hid]
  · simp [upsertOne, h]

theorem upsertOne_mem_of_ne (t : Table) (r s : PyRecord)
    (hs : s ∈ t) (hne : s.id ≠ r.id) : s ∈ upsertOne t r := by
  by_cases h : t.any (fun x => x.id = r.id)
  · simp only [upsertOne, h, if_true]
    refine List.mem_map.2 ⟨s, hs, ?_⟩
    simp [hne]
  · simp only [upsertOne, h, if_false]
    exact List.mem_append_left _ hs

theorem upsertOne_origin (t : Table) (r x : PyRecord)
    (hx : x ∈ upsertOne t r) : x ∈ t ∨ x = r := by
  by_cases h : t.any (fun x => x.id = r.id)
  · simp only [upsertOne, h, if_true] at hx
    rcases List.mem_map.1 hx with ⟨y, hy, hxy⟩
    by_cases hid : y.id = r.id
    · right; rw [← hxy]; simp [hid]
    · left; rw [← hxy]; simpa [hid] using hy
  · simp only [upsertOne, h, if_false] at hx
    rcases List.mem_append.1 hx with h1 | h1
    · exact Or.inl h1
    · exact Or.inr (List.mem_singleton.1 h1)

theorem id_upsertOne_map (t : Table) (r : PyRecord) :
    idsOf (t.map (fun x => if x.id = r.id then r else x)) = idsOf t := by
  simp only [idsOf, List.map_map]
  refine List.map_congr_left (fun x _ => ?_)
  by_cases hid : x.id = r.id <;> simp [hid]

theorem rowsWithId_eq_nil_of_not_any (t : Table) (pid : Int)
    (h : (t.any (fun x => x.id = pid)) = false) : rowsWithId t pid = [] := by
  rw [rowsWithId, List.filter_eq_nil_iff]
  intro x hx hxe
  have : t.any (fun x => x.id = pid) = true :=
    List.any_eq_true.2 ⟨x, hx, hxe⟩
  rw [h] at this
  cases this

theorem rowsWithId_map_replace (t : Table) (r : PyRecord) :
    rowsWithId (t.map (fun x => if x.id = r.id then r else x)) r.id =
      (rowsWithId t r.id).map (fun _ => r) := by
  induction t with
  | nil => rfl
  | cons x rest ih =>
    by_cases hid : x.id = r.id
    · simp only [List.map_cons, hid, if_true, rowsWithId, List.filter_cons] at ih ⊢
      simp [ih, rowsWithId, hid]
    · simp only [List.map_cons, hid, if_false, rowsWithId, List.filter_cons] at ih ⊢
      simp [ih, rowsWithId, hid]

theorem rowsWithId_append (t s : Table) (pid : Int) :
    rowsWithId (t ++ s) pid = rowsWithId t pid ++ rowsWithId s pid := by
  simp [rowsWithId, List.filter_append]

theorem upsertOne_pos (t : Table) (r : PyRecord)
    (h : (t.any (fun x => x.id = r.id)) = true) :
    upsertOne t r = t.map (fun x => if x.id = r.id then r else x) := by
  rw [upsertOne, if_pos h]

theorem upsertOne_neg (t : Table) (r : PyRecord)
    (h : (t.any (fun x => x.id = r.id)) = false) :
    upsertOne t r = t ++ [r] := by
  rw [upsertOne, if_neg]
  rw [h]
  simp

theorem rowsWithId_length_le_one (t : Table) (pid : Int)
    (h : (idsOf t).Nodup) : (rowsWithId t pid).length ≤ 1 := by
  induction t with
  | nil => simp [rowsWithId]
  | cons x rest ih =>
    simp only [idsOf, List.map_cons, List.nodup_cons] at h
    by_cases hid : x.id = pid
    · have hall : ∀ y ∈ rest, ¬ y.id = pid := by
        intro y hy hye
        exact h.1 (hid ▸ hye ▸ List.mem_map.2 ⟨y, hy, rfl⟩)
      have hnil : rowsWithId rest pid = [] := by
        apply rowsWithId_eq_nil_of_not_any
        rw [List.any_eq_false]
        intro y hy
        simpa using hall y hy
      simp only [rowsWithId] at hnil ⊢
      simp [List.filter_cons, hid, hnil]
    · simp only [rowsWithId] at ih ⊢
      simp only [List.filter_cons, hid, decide_eq_true_eq, if_neg hid]
      exact ih h.2

theorem rowsWithId_upsertOne_self (t : Table) (r : PyRecord)
    (h : (idsOf t).Nodup) : rowsWithId (upsertOne t r) r.id = [r] := by
  cases ha : t.any (fun x => x.id = r.id) with
  | true =>
    rw [upsertOne_pos t r ha, rowsWithId_map_replace]
    rcases List.any_eq_true.1 ha with ⟨x, hx, hid⟩
    simp only [decide_eq_true_eq] at hid
    have hmem : x ∈ rowsWithId t r.id := by
      rw [rowsWithId]
      exact List.mem_filter.2 ⟨hx, by simp [hid]⟩
    have hlen : (rowsWithId t r.id).length ≤ 1 := rowsWithId_length_le_one t r.id h
    have hlen1 : (rowsWithId t r.id).length = 1 := by
      have := List.length_pos_of_mem hmem
      omega
    rcases List.length_eq_one.1 hlen1 with ⟨a, hall⟩
    rw [hall]
    rfl
  | false =>
    rw [upsertOne_neg t r ha, rowsWithId_append,
      rowsWithId_eq_nil_of_not_any t r.id ha]
    simp [rowsWithId]

theorem rowsWithId_map_replace_ne (t : Table) (s : PyRecord) (pid : Int)
    (hne : s.id ≠ pid) :
    rowsWithId (t.map (fun x => if x.id = s.id then s else x)) pid =
      rowsWithId t pid := by
  induction t with
  | nil => rfl
  | cons x rest ih =>
    simp only [rowsWithId, List.map_cons, List.filter_cons] at ih ⊢
    by_cases hid : x.id = s.id
    · have hxp : ¬ x.id = pid := fun hh => hne (by rw [← hid]; exact hh)
      simp [hid, hxp, hne, ih]
    · by_cases hxp : x.id = pid
      · have hps : ¬ pid = s.id := fun hh => hid (hxp.trans hh)
        simp [hid, hxp, hps, ih]
      · simp [hid, hxp, ih]

theorem rowsWithId_upsertOne_ne (t : Table) (s : PyRecord) (pid : Int)
    (hne : s.id ≠ pid) : rowsWithId (upsertOne t s) pid = rowsWithId t pid := by
  cases ha : t.any (fun x => x.id = s.id) with
  | true => rw [upsertOne_pos t s ha, rowsWithId_map_replace_ne t s pid hne]
  | false =>
    rw [upsertOne_neg t s ha, rowsWithId_append]
    simp [rowsWithId, hne]

theorem idsOf_nodup_upsertOne (t : Table) (r : PyRecord)
    (h : (idsOf t).Nodup) : (idsOf (upsertOne t r)).Nodup := by
  cases ha : t.any (fun x => x.id = r.id) with
  | true =>
    rw [upsertOne_pos t r ha, id_upsertOne_map]
    exact h
  | false =>
    rw [upsertOne_neg t r ha]
    have hnotin : r.id ∉ idsOf t := by
      intro hmem
      rcases List.mem_map.1 hmem with ⟨y, hy, hid⟩
      have : t.any (fun x => x.id = r.id) = true :=
        List.any_eq_true.2 ⟨y, hy, by simp [hid]⟩
      rw [ha] at this
      cases this
    simp only [idsOf, List.map_append, List.map_cons, List.map_nil]
    rw [List.nodup_append]
    refine ⟨h, List.nodup_singleton _, ?_⟩
    intro a hmem hsing
    rcases List.mem_singleton.1 hsing with rfl
    exact hnotin hmem

theorem upsertOne_idem (t : Table) (r : PyRecord) :
    upsertOne (upsertOne t r) r = upsertOne t r := by
  have hany : ((upsertOne t r).any (fun x => x.id = r.id)) = true :=
    List.any_eq_true.2 ⟨r, upsertOne_mem_self t r, by simp⟩
  have hall : ∀ x ∈ upsertOne t r, x.id = r.id → x = r := by
    intro x hx hid
    cases ha : t.any (fun y => y.id = r.id) with
    | true =>
      rw [upsertOne_pos t r ha] at hx
      rcases List.mem_map.1 hx with ⟨y, _, hxy⟩
      by_cases hyid : y.id = r.id
      · rw [← hxy]; simp [hyid]
      · rw [← hxy] at hid
        rw [if_neg hyid] at hid
        exact absurd hid hyid
    | false =>
      rw [upsertOne_neg t r ha] at hx
      rcases List.mem_append.1 hx with h2 | h2
      · exfalso
        have hc : t.any (fun y => y.id = r.id) = true :=
          List.any_eq_true.2 ⟨x, h2, by simp [hid]⟩
        rw [ha] at hc
        cases hc
      · exact List.mem_singleton.1 h2
  rw [upsertOne_pos (upsertOne t r) r hany]
  refine Eq.trans (List.map_congr_left (fun x hx => ?_)) (List.map_id _)
  by_cases hid : x.id = r.id
  · simp [hid, hall x hx hid]
  · simp [hid]

theorem insert_batch_eq_foldl (t : Table) (rs : List PyRecord) :
    insert_batch t rs = rs.foldl upsertOne t := by
  cases rs with
  | nil => rfl
  | cons r rest => rfl

theorem foldl_upsert_mem_preserve (rs : List PyRecord) :
    ∀ (t : Table) (r : PyRecord), (∀ s ∈ rs, s.id ≠ r.id) → r ∈ t →
      r ∈ rs.foldl upsertOne t := by
  induction rs with
  | nil => intro t r _ hr; exact hr
  | cons s rest ih =>
    intro t r hne hr
    have hs : s.id ≠ r.id := hne s (List.mem_cons_self s rest)
    exact ih (upsertOne t s) r
      (fun s' hs' => hne s' (List.mem_cons_of_mem s hs'))
      (upsertOne_mem_of_ne t s r hr (fun hh => hs hh.symm))

theorem insert_batch_mem (rs : List PyRecord) :
    ∀ (t : Table) (r : PyRecord), (rs.map (fun s => s.id)).Nodup → r ∈ rs →
      r ∈ insert_batch t rs := by
  induction rs with
  | nil => intro t r _ hr; cases hr
  | cons s rest ih =>
    intro t r hnd hr
    rw [insert_batch_eq_foldl, List.foldl_cons]
    simp only [List.map_cons, List.nodup_cons] at hnd
    rcases List.mem_cons.1 hr with rfl | hr'
    · refine foldl_upsert_mem_preserve rest (upsertOne t r) r ?_ (upsertOne_mem_self t r)
      intro s' hs' hids
      exact hnd.1 (hids ▸ List.mem_map.2 ⟨s', hs', rfl⟩)
    · rw [← insert_batch_eq_foldl]
      exact ih (upsertOne t s) r hnd.2 hr'

theorem rowsWithId_foldl_ne (rs : List PyRecord) :
    ∀ (t : Table) (pid : Int), (∀ s ∈ rs, s.id ≠ pid) →
      rowsWithId (rs.foldl upsertOne t) pid = rowsWithId t pid := by
  induction rs with
  | nil => intro t pid _; rfl
  | cons s rest ih =>
    intro t pid hne
    have h1 : rowsWithId (upsertOne t s) pid = rowsWithId t pid :=
      rowsWithId_upsertOne_ne t s pid (hne s (List.mem_cons_self s rest))
    rw [List.foldl_cons, ih (upsertOne t s) pid
      (fun s' hs' => hne s' (List.mem_cons_of_mem s hs')), h1]

theorem rowsWithId_insert_batch_ne (t : Table) (rs : List PyRecord) (pid : Int)
    (hne : ∀ s ∈ rs, s.id ≠ pid) :
    rowsWithId (insert_batch t rs) pid = rowsWithId t pid := by
  rw [insert_batch_eq_foldl]
  exact rowsWithId_foldl_ne rs t pid hne

theorem foldl_upsert_origin (rs : List PyRecord) :
    ∀ (t : Table) (x : PyRecord), x ∈ rs.foldl upsertOne t → x ∈ t ∨ x ∈ rs := by
  induction rs with
  | nil => intro t x hx; exact Or.inl hx
  | cons s rest ih =>
    intro t x hx
    rw [List.foldl_cons] at hx
    rcases ih (upsertOne t s) x hx with h1 | h1
    · rcases upsertOne_origin t s x h1 with h2 | h2
      · exact Or.inl h2
      · exact Or.inr (h2 ▸ List.mem_cons_self s rest)
    · exact Or.inr (List.mem_cons_of_mem s h1)

theorem insert_batch_origin (t : Table) (rs : List PyRecord) (x : PyRecord)
    (hx : x ∈ insert_batch t rs) : x ∈ t ∨ x ∈ rs := by
  rw [insert_batch_eq_foldl] at hx
  exact foldl_upsert_origin rs t x hx

theorem idsOf_nodup_insert_batch (rs : List PyRecord) :
    ∀ t : Table, (idsOf t).Nodup → (idsOf (insert_batch t rs)).Nodup := by
  intro t h
  rw [insert_batch_eq_foldl]
  induction rs generalizing t with
  | nil => exact h
  | cons s rest ih =>
    rw [List.foldl_cons]
    exact ih (upsertOne t s) (idsOf_nodup_upsertOne t s h)

/-! ## Batch classification lemmas -/

theorem filter_of_map {α β : Type} (f : α → β) (p : β → Bool) (l : List α) :
    (l.map f).filter p = (l.filter (fun a => p (f a))).map f := by
  induction l with
  | nil => rfl
  | cons a rest ih =>
    by_cases ha : p (f a) = true
    · simp [List.filter_cons, ha, ih]
    · simp only [Bool.not_eq_true] at ha
      simp [List.filter_cons, ha, ih]

theorem goodMain_ids (core : String → String) (env : Int → List AttemptResult)
    (batch : List Int) :
    (goodMain core env batch).map (fun r => r.id) =
      batch.filter (fun pid => !allNoneNonId (resultMain core env pid)) := by
  rw [goodMain, filter_of_map, List.map_map]
  calc (batch.filter (fun pid => !allNoneNonId (resultMain core env pid))).map
        ((fun r : PyRecord => r.id) ∘ resultMain core env)
      = (batch.filter (fun pid => !allNoneNonId (resultMain core env pid))).map id := by
        refine List.map_congr_left (fun pid _ => ?_)
        simp [resultMain_id core env pid]
    _ = _ := List.map_id _

theorem errMain_ids (core : String → String) (env : Int → List AttemptResult)
    (batch : List Int) :
    (errMain core env batch).map (fun r => r.id) =
      batch.filter (fun pid => allNoneNonId (resultMain core env pid)) := by
  rw [errMain, filter_of_map, List.map_map]
  calc (batch.filter (fun pid => allNoneNonId (resultMain core env pid))).map
        ((fun r : PyRecord => r.id) ∘ resultMain core env)
      = (batch.filter (fun pid => allNoneNonId (resultMain core env pid))).map id := by
        refine List.map_congr_left (fun pid _ => ?_)
        simp [resultMain_id core env pid]
    _ = _ := List.map_id _

theorem sentinel_mem_errMain (core : String → String) (env : Int → List AttemptResult)
    (batch : List Int) (pid : Int) (hmem : pid ∈ batch)
    (hsent : resultMain core env pid = sentinelMain pid) :
    sentinelMain pid ∈ errMain core env batch := by
  rw [errMain, filter_of_map]
  refine List.mem_map.2 ⟨pid, ?_, hsent⟩
  refine List.mem_filter.2 ⟨hmem, ?_⟩
  rw [hsent]
  simp [allNoneNonId_sentinelMain]

theorem build_mem_goodMain (core : String → String) (env : Int → List AttemptResult)
    (batch : List Int) (pid : Int) (p : Payload) (hmem : pid ∈ batch)
    (hres : resultMain core env pid = buildRecordMain core pid p) :
    buildRecordMain core pid p ∈ goodMain core env batch := by
  rw [goodMain, filter_of_map]
  refine List.mem_map.2 ⟨pid, ?_, hres⟩
  refine List.mem_filter.2 ⟨hmem, ?_⟩
  rw [hres]
  simp [allNoneNonId_buildRecordMain]

theorem mem_goodQueue_iff (core : String → String) (env : Int → List AttemptResult)
    (batch : List Int) (r : PyRecord) :
    r ∈ goodQueue core env batch ↔
      ∃ pid ∈ batch, outcomeQueue core env pid = FetchOutcomeQueue.success r := by
  rw [goodQueue, List.mem_filterMap]
  constructor
  · rintro ⟨pid, hpid, hmatch⟩
    refine ⟨pid, hpid, ?_⟩
    cases ho : outcomeQueue core env pid with
    | success r' => rw [ho] at hmatch; simp at hmatch; rw [hmatch]
    | notFound => rw [ho] at hmatch; simp at hmatch
    | exhausted => rw [ho] at hmatch; simp at hmatch
  · rintro ⟨pid, hpid, ho⟩
    exact ⟨pid, hpid, by rw [ho]⟩

theorem mem_errRecsQueue_iff (core : String → String) (env : Int → List AttemptResult)
    (batch : List Int) (r : PyRecord) :
    r ∈ errRecsQueue core env batch ↔
      ∃ pid ∈ batch, outcomeQueue core env pid = FetchOutcomeQueue.notFound ∧
        r = errRecordQueue pid := by
  rw [errRecsQueue, List.mem_filterMap]
  constructor
  · rintro ⟨pid, hpid, hmatch⟩
    refine ⟨pid, hpid, ?_⟩
    cases ho : outcomeQueue core env pid with
    | success r' => rw [ho] at hmatch; simp at hmatch
    | notFound => rw [ho] at hmatch; simp at hmatch; exact ⟨rfl, hmatch.symm⟩
    | exhausted => rw [ho] at hmatch; simp at hmatch
  · rintro ⟨pid, hpid, ho, hr⟩
    exact ⟨pid, hpid, by rw [ho, hr]⟩

theorem mem_errIdsQueue_iff (core : String → String) (env : Int → List AttemptResult)
    (batch : List Int) (pid : Int) :
    pid ∈ errIdsQueue core env batch ↔
      pid ∈ batch ∧ outcomeQueue core env pid = FetchOutcomeQueue.notFound := by
  rw [errIdsQueue]
  simp [List.mem_filter]

theorem errRecordQueue_id (pid : Int) : (errRecordQueue pid).id = pid := rfl

theorem errRecsQueue_ids (core : String → String) (env : Int → List AttemptResult)
    (batch : List Int) :
    (errRecsQueue core env batch).map (fun r => r.id) = errIdsQueue core env batch := by
  induction batch with
  | nil => rfl
  | cons pid rest ih =>
    simp only [errRecsQueue, errIdsQueue] at ih ⊢
    rw [List.filterMap_cons, List.filter_cons]
    cases ho : outcomeQueue core env pid with
    | success r => simp [ho, ih]
    | notFound =>
      simp only [ho]
      simp [errRecordQueue_id, ih]
    | exhausted => simp [ho, ih]

theorem mem_goodQueue_ids (core : String → String) (env : Int → List AttemptResult)
    (batch : List Int) (pid : Int)
    (h : pid ∈ (goodQueue core env batch).map (fun r => r.id)) :
    ∃ r, outcomeQueue core env pid = FetchOutcomeQueue.success r := by
  rcases List.mem_map.1 h with ⟨r, hr, hid⟩
  rcases (mem_goodQueue_iff core env batch r).1 hr with ⟨pid', _, ho⟩
  have : r.id = pid' := outcomeQueue_success_id core env pid' r ho
  rw [← hid, this]
  exact ⟨r, ho⟩

theorem not_mem_goodQueue_ids (core : String → String)
    (env : Int → List AttemptResult) (batch : List Int) (pid : Int)
    (h : ∀ r, outcomeQueue core env pid ≠ FetchOutcomeQueue.success r) :
    pid ∉ (goodQueue core env batch).map (fun r => r.id) := by
  intro hmem
  rcases mem_goodQueue_ids core env batch pid hmem with ⟨r, hr⟩
  exact h r hr

/-! ## Routing lemmas: what one batch does for one id -/

theorem runBatchMain_sentinel_routing (core : String → String)
    (env : Int → List AttemptResult) (st : PState) (batch : List Int) (pid : Int)
    (hmem : pid ∈ batch) (hnd : batch.Nodup)
    (hq : (statusOf st.queue pid).isSome = true)
    (hsent : resultMain core env pid = sentinelMain pid) :
    sentinelMain pid ∈ (runBatchMain core env st batch).errorT ∧
    statusOf (runBatchMain core env st batch).queue pid =
      some (Status.error, some "Failed after retries") := by
  have hallnone : allNoneNonId (resultMain core env pid) = true := by
    rw [hsent]; exact allNoneNonId_sentinelMain pid
  have hnd' : ((errMain core env batch).map (fun r => r.id)).Nodup := by
    rw [errMain_ids]; exact hnd.filter _
  have herrids : pid ∈ (errMain core env batch).map (fun r => r.id) := by
    rw [errMain_ids]
    exact List.mem_filter.2 ⟨hmem, hallnone⟩
  constructor
  · exact insert_batch_mem (errMain core env batch) st.errorT (sentinelMain pid) hnd'
      (sentinel_mem_errMain core env batch pid hmem hsent)
  · show statusOf (update_queue_status
      (update_queue_status st.queue ((goodMain core env batch).map (fun r => r.id))
        Status.done none)
      ((errMain core env batch).map (fun r => r.id)) Status.error
      (some "Failed after retries")) pid = _
    rw [statusOf_update, if_pos herrids]
    have h1 : ((statusOf (update_queue_status st.queue
        ((goodMain core env batch).map (fun r => r.id)) Status.done none) pid)).isSome
        = true :=
      statusOf_update_isSome st.queue _ Status.done none pid hq
    rcases Option.isSome_iff_exists.1 h1 with ⟨v, hv⟩
    rw [hv]
    rfl

theorem runBatchMain_ok_routing (core : String → String)
    (env : Int → List AttemptResult) (st : PState) (batch : List Int) (pid : Int)
    (p : Payload) (hmem : pid ∈ batch) (hnd : batch.Nodup)
    (hq : (statusOf st.queue pid).isSome = true)
    (hres : resultMain core env pid = buildRecordMain core pid p) :
    buildRecordMain core pid p ∈ (runBatchMain core env st batch).product ∧
    statusOf (runBatchMain core env st batch).queue pid = some (Status.done, none) ∧
    rowsWithId (runBatchMain core env st batch).errorT pid =
      rowsWithId st.errorT pid := by
  have hallnone : allNoneNonId (resultMain core env pid) = false := by
    rw [hres]; exact allNoneNonId_buildRecordMain core pid p
  have hnd' : ((goodMain core env batch).map (fun r => r.id)).Nodup := by
    rw [goodMain_ids]; exact hnd.filter _
  have hgoodids : pid ∈ (goodMain core env batch).map (fun r => r.id) := by
    rw [goodMain_ids]
    exact List.mem_filter.2 ⟨hmem, by rw [hallnone]; rfl⟩
  have herrids : pid ∉ (errMain core env batch).map (fun r => r.id) := by
    rw [errMain_ids]
    intro hc
    have := (List.mem_filter.1 hc).2
    rw [hallnone] at this
    cases this
  refine ⟨?_, ?_, ?_⟩
  · exact insert_batch_mem (goodMain core env batch) st.product _ hnd'
      (build_mem_goodMain core env batch pid p hmem hres)
  · show statusOf (update_queue_status
      (update_queue_status st.queue ((goodMain core env batch).map (fun r => r.id))
        Status.done none)
      ((errMain core env batch).map (fun r => r.id)) Status.error
      (some "Failed after retries")) pid = _
    rw [statusOf_update, if_neg herrids, statusOf_update, if_pos hgoodids]
    rcases Option.isSome_iff_exists.1 hq with ⟨v, hv⟩
    rw [hv]
    rfl
  · show rowsWithId (insert_batch st.errorT (errMain core env batch)) pid = _
    refine rowsWithId_insert_batch_ne st.errorT _ pid (fun s hs hsid => ?_)
    exact herrids (hsid ▸ List.mem_map.2 ⟨s, hs, rfl⟩)

theorem runBatchQueue_notFound_routing (core : String → String)
    (env : Int → List AttemptResult) (st : PState) (batch : List Int) (pid : Int)
    (hmem : pid ∈ batch) (hnd : batch.Nodup)
    (hq : (statusOf st.queue pid).isSome = true)
    (ho : outcomeQueue core env pid = FetchOutcomeQueue.notFound) :
    errRecordQueue pid ∈ (runBatchQueue core env st batch).errorT ∧
    statusOf (runBatchQueue core env st batch).queue pid =
      some (Status.error, some "404 Not Found") := by
  have hnd' : ((errRecsQueue core env batch).map (fun r => r.id)).Nodup := by
    rw [errRecsQueue_ids]; exact hnd.filter _
  have herrids : pid ∈ errIdsQueue core env batch :=
    (mem_errIdsQueue_iff core env batch pid).2 ⟨hmem, ho⟩
  constructor
  · exact insert_batch_mem (errRecsQueue core env batch) st.errorT _ hnd'
      ((mem_errRecsQueue_iff core env batch (errRecordQueue pid)).2
        ⟨pid, hmem, ho, rfl⟩)
  · show statusOf (update_queue_status
      (update_queue_status st.queue ((goodQueue core env batch).map (fun r => r.id))
        Status.done none)
      (errIdsQueue core env batch) Status.error (some "404 Not Found")) pid = _
    rw [statusOf_update, if_pos herrids]
    have h1 : ((statusOf (update_queue_status st.queue
        ((goodQueue core env batch).map (fun r => r.id)) Status.done none) pid)).isSome
        = true :=
      statusOf_update_isSome st.queue _ Status.done none pid hq
    rcases Option.isSome_iff_exists.1 h1 with ⟨v, hv⟩
    rw [hv]
    rfl

theorem runBatchQueue_exhausted_routing (core : String → String)
    (env : Int → List AttemptResult) (st : PState) (batch : List Int) (pid : Int)
    (ho : outcomeQueue core env pid = FetchOutcomeQueue.exhausted) :
    statusOf (runBatchQueue core env st batch).queue pid = statusOf st.queue pid ∧
    rowsWithId (runBatchQueue core env st batch).errorT pid =
      rowsWithId st.errorT pid ∧
    rowsWithId (runBatchQueue core env st batch).product pid =
      rowsWithId st.product pid := by
  have hgood : pid ∉ (goodQueue core env batch).map (fun r => r.id) :=
    not_mem_goodQueue_ids core env batch pid (fun r hc => by rw [ho] at hc; cases hc)
  have herr : pid ∉ errIdsQueue core env batch := by
    intro hc
    have := ((mem_errIdsQueue_iff core env batch pid).1 hc).2
    rw [ho] at this
    cases this
  refine ⟨?_, ?_, ?_⟩
  · show statusOf (update_queue_status
      (update_queue_status st.queue ((goodQueue core env batch).map (fun r => r.id))
        Status.done none)
      (errIdsQueue core env batch) Status.error (some "404 Not Found")) pid = _
    rw [statusOf_update, if_neg herr, statusOf_update, if_neg hgood]
  · show rowsWithId (insert_batch_to_db st.errorT (errRecsQueue core env batch)) pid = _
    rw [insert_batch_to_db]
    refine rowsWithId_insert_batch_ne st.errorT _ pid (fun s hs hsid => ?_)
    refine herr ?_
    rw [← errRecsQueue_ids]
    exact hsid ▸ List.mem_map.2 ⟨s, hs, rfl⟩
  · show rowsWithId (insert_batch_to_db st.product (goodQueue core env batch)) pid = _
    rw [insert_batch_to_db]
    refine rowsWithId_insert_batch_ne st.product _ pid (fun s hs hsid => ?_)
    exact hgood (hsid ▸ List.mem_map.2 ⟨s, hs, rfl⟩)

/-! ## Script 1 fetch loop: step lemmas -/

theorem fetchGoMain_ok (core : String → String) (pid : Int) (p : Payload)
    (tr : List AttemptResult) (attempt fuel : Nat) :
    fetchGoMain core pid attempt (fuel + 1) (AttemptResult.ok p :: tr) =
      (buildRecordMain core pid p, [], false) := by
  simp [fetchGoMain]

theorem fetchGoMain_hard_abort (core : String → String) (pid : Int) (c : Nat)
    (tr : List AttemptResult) (attempt fuel : Nat) (hc : transient c = false) :
    fetchGoMain core pid attempt (fuel + 1) (AttemptResult.status c :: tr) =
      (sentinelMain pid, [], true) := by
  simp [fetchGoMain, hc]

theorem fetchGoMain_exn_replicate (core : String → String) (pid : Int) :
    ∀ (k fuel attempt : Nat) (p : Payload), k < fuel →
      fetchGoMain core pid attempt fuel
        (List.replicate k AttemptResult.exn ++ [AttemptResult.ok p]) =
      (buildRecordMain core pid p, [], false) := by
  intro k
  induction k with
  | zero =>
    intro fuel attempt p hk
    cases fuel with
    | zero => omega
    | succ f =>
      rw [List.replicate_zero, List.nil_append]
      exact fetchGoMain_ok core pid p [] attempt f
  | succ k ih =>
    intro fuel attempt p hk
    cases fuel with
    | zero => omega
    | succ f =>
      rw [List.replicate_succ, List.cons_append]
      show fetchGoMain core pid (attempt + 1) f
        (List.replicate k AttemptResult.exn ++ [AttemptResult.ok p]) = _
      exact ih f (attempt + 1) p (by omega)

theorem fetchGoMain_all_transient_status (core : String → String) (pid : Int) :
    ∀ (fuel : Nat) (tr : List AttemptResult) (attempt : Nat),
      (∀ r ∈ tr, ∃ c, r = AttemptResult.status c ∧ transient c = true) →
      fuel ≤ tr.length →
      fetchGoMain core pid attempt fuel tr =
        (sentinelMain pid,
         (List.range fuel).map (fun i => 2 * (attempt + 1 + i)), true) := by
  intro fuel
  induction fuel with
  | zero =>
    intro tr attempt _ _
    simp [fetchGoMain]
  | succ f ih =>
    intro tr attempt htr hlen
    cases tr with
    | nil => simp at hlen
    | cons a rest =>
      obtain ⟨c, rfl, hc⟩ := htr a (List.mem_cons_self a rest)
      have hrest : ∀ r ∈ rest, ∃ c, r = AttemptResult.status c ∧ transient c = true :=
        fun r hr => htr r (List.mem_cons_of_mem _ hr)
      have hlen' : f ≤ rest.length := by simpa using hlen
      have hrec := ih rest (attempt + 1) hrest hlen'
      have hrange : (List.range (f + 1)).map (fun i => 2 * (attempt + 1 + i)) =
          2 * (attempt + 1) :: (List.range f).map (fun i => 2 * ((attempt + 1) + 1 + i)) := by
        rw [List.range_succ_eq_map, List.map_cons, List.map_map]
        refine congrArg₂ List.cons (by omega) ?_
        refine List.map_congr_left (fun i _ => ?_)
        simp only [Function.comp_apply]
        omega
      rw [hrange]
      simp [fetchGoMain, hc, hrec]

theorem fetch_product_queue_404 (core : String → String) (pid : Int)
    (tr : List AttemptResult) :
    fetch_product_queue core pid (AttemptResult.status 404 :: tr) =
      (FetchOutcomeQueue.notFound, [], 1) := by
  rw [fetch_product_queue]
  exact fetchGoQueue_notFound core pid tr 1 4

theorem fetch_product_main_404 (core : String → String) (pid : Int)
    (tr : List AttemptResult) :
    fetch_product_main core pid (AttemptResult.status 404 :: tr) =
      (sentinelMain pid, [], true) := by
  rw [fetch_product_main]
  exact fetchGoMain_hard_abort core pid 404 tr 0 4 (by rfl)

theorem fetch_product_main_ok (core : String → String) (pid : Int) (p : Payload)
    (tr : List AttemptResult) :
    fetch_product_main core pid (AttemptResult.ok p :: tr) =
      (buildRecordMain core pid p, [], false) := by
  rw [fetch_product_main]
  exact fetchGoMain_ok core pid p tr 0 4

/-! ## Claim theorems -/

/-- C1 (counterexample): at a concrete queue holding exactly one id whose
status is `error`, script 1's outstanding-work selection
(`fetch_pending_ids`, `main.py` lines 62–65) returns the empty list, so an
id with status `error` is *not* included — the claim's "every id with
status 'error' is included" conjunct fails on `src/main.py`. -/
theorem C1_counterexample :
    statusOf [((1 : Int), Status.error, some "Failed after retries")] 1 =
      some (Status.error, some "Failed after retries") ∧
    (1 : Int) ∉ fetch_pending_ids
      [((1 : Int), Status.error, some "Failed after retries")] := by
  decide

/-- C1 (amended): script 2's selection (`fetch_pending_or_error_ids`)
returns exactly the ids whose status is `pending` or `error` — every
`error` id is retry-eligible and no `done` id is ever selected — while
script 1's selection (`fetch_pending_ids`) returns exactly the `pending`
ids, excluding `error` ids (script 1 never retries errored ids). -/
theorem C1_selectOutstanding_spec (q : Queue) :
    (∀ pid : Int, pid ∈ fetch_pending_or_error_ids q ↔
      ∃ e ∈ q, e.1 = pid ∧ (e.2.1 = Status.pending ∨ e.2.1 = Status.error)) ∧
    (∀ pid : Int, pid ∈ fetch_pending_ids q ↔
      ∃ e ∈ q, e.1 = pid ∧ e.2.1 = Status.pending) := by
  constructor <;> intro pid <;>
    simp only [fetch_pending_or_error_ids, fetch_pending_ids, List.mem_map,
      List.mem_filter] <;>
    constructor
  · rintro ⟨e, ⟨he, hst⟩, hid⟩
    exact ⟨e, he, hid, by simpa using hst⟩
  · rintro ⟨e, he, hid, hst⟩
    exact ⟨e, ⟨he, by simpa using hst⟩, hid⟩
  · rintro ⟨e, ⟨he, hst⟩, hid⟩
    exact ⟨e, he, hid, by simpa using hst⟩
  · rintro ⟨e, he, hid, hst⟩
    exact ⟨e, ⟨he, by simpa using hst⟩, hid⟩

/-- C1 (witness): the amended characterization applied at a concrete
queue: an `error` id is selected by script 2's selection. -/
theorem C1_selectOutstanding_spec_witness :
    (1 : Int) ∈ fetch_pending_or_error_ids [((1 : Int), Status.error, none)] :=
  ((C1_selectOutstanding_spec [((1 : Int), Status.error, none)]).1 1).mpr
    ⟨((1 : Int), Status.error, none), by simp, rfl, Or.inr rfl⟩

/-- C2 (counterexample): in script 2, an id whose five attempts all return
HTTP 503 (retries exhausted) produces *no* error record and *no* status
change: `fetch_product` returns `None`, `process_batch` silently drops it
(`if r:`), so error storage stays empty and the id stays `pending` — the
claim fails on `src/tiki_queue.py`. -/
theorem C2_counterexample :
    let env : Int → List AttemptResult := fun _ =>
      [AttemptResult.status 503, AttemptResult.status 503, AttemptResult.status 503,
       AttemptResult.status 503, AttemptResult.status 503]
    let st := runBatchQueue (fun s => s) env
      (PState.mk [((9 : Int), Status.pending, none)] [] []) [9]
    st.errorT = [] ∧ statusOf st.queue 9 = some (Status.pending, none) := by
  decide

/-- C2 (amended): for an id whose fetch consumes all `RETRIES` attempts
without a usable response, *script 1* writes the all-None sentinel record
to error storage and sets the id's status to `error` with reason
`"Failed after retries"`, exactly as the claim states; *script 2* instead
returns `None` from the fetch, the orchestrator drops the result, and the
id's queue status and error-storage rows are left unchanged (the id simply
stays outstanding for a later run). -/
theorem C2_exhausted_amended (core : String → String)
    (env : Int → List AttemptResult) (st : PState) (batch : List Int) (pid : Int)
    (hmem : pid ∈ batch) (hnd : batch.Nodup)
    (hq : (statusOf st.queue pid).isSome = true)
    (hex1 : (fetch_product_main core pid (env pid)).2.2 = true)
    (hex2 : outcomeQueue core env pid = FetchOutcomeQueue.exhausted) :
    (sentinelMain pid ∈ (runBatchMain core env st batch).errorT ∧
     statusOf (runBatchMain core env st batch).queue pid =
       some (Status.error, some "Failed after retries")) ∧
    (statusOf (runBatchQueue core env st batch).queue pid = statusOf st.queue pid ∧
     rowsWithId (runBatchQueue core env st batch).errorT pid =
       rowsWithId st.errorT pid) := by
  have hsent : resultMain core env pid = sentinelMain pid :=
    (fetch_product_main_flag core pid (env pid)).1 hex1
  refine ⟨runBatchMain_sentinel_routing core env st batch pid hmem hnd hq hsent, ?_⟩
  have h := runBatchQueue_exhausted_routing core env st batch pid hex2
  exact ⟨h.1, h.2.1⟩

/-- C2 (witness): the amended theorem applied at the concrete
all-503 environment for id 9. -/
theorem C2_exhausted_amended_witness :
    let env : Int → List AttemptResult := fun _ =>
      [AttemptResult.status 503, AttemptResult.status 503, AttemptResult.status 503,
       AttemptResult.status 503, AttemptResult.status 503]
    let st := PState.mk [((9 : Int), Status.pending, none)] [] []
    (sentinelMain 9 ∈ (runBatchMain (fun s => s) env st [9]).errorT ∧
     statusOf (runBatchMain (fun s => s) env st [9]).queue 9 =
       some (Status.error, some "Failed after retries")) ∧
    (statusOf (runBatchQueue (fun s => s) env st [9]).queue 9 = statusOf st.queue 9 ∧
     rowsWithId (runBatchQueue (fun s => s) env st [9]).errorT 9 =
       rowsWithId st.errorT 9) :=
  C2_exhausted_amended (fun s => s) _ _ [9] 9 (by decide) (by decide) (by decide)
    (by decide) (by decide)

/-- C3 (counterexample): in script 1 a 404 response for id 2 is routed to
error storage with the *same* reason string `"Failed after retries"` used
for exhausted retries — there is no `"404 Not Found"` diagnostic, so the
outcome is not distinguishable from exhaustion, contrary to the claim. -/
theorem C3_counterexample :
    let st := runBatchMain (fun s => s) (fun _ => [AttemptResult.status 404])
      (PState.mk [((2 : Int), Status.pending, none)] [] []) [2]
    statusOf st.queue 2 = some (Status.error, some "Failed after retries") ∧
    ¬ statusOf st.queue 2 = some (Status.error, some "404 Not Found") ∧
    sentinelMain 2 ∈ st.errorT := by
  decide

/-- C3 (amended): an HTTP 404 ends fetching immediately in both scripts —
exactly one attempt, no backoff sleeps — and the id is routed to error
storage in both; but only script 2 records the distinguishable diagnostic
`"404 Not Found"` (with an `"all_fields"` error row), while script 1 falls
into its generic failure path and records the same all-None sentinel and
`"Failed after retries"` reason it uses for exhausted retries. -/
theorem C3_notFound_amended (core : String → String)
    (env : Int → List AttemptResult) (st : PState) (batch : List Int) (pid : Int)
    (tr : List AttemptResult)
    (henv : env pid = AttemptResult.status 404 :: tr)
    (hmem : pid ∈ batch) (hnd : batch.Nodup)
    (hq : (statusOf st.queue pid).isSome = true) :
    fetch_product_queue core pid (env pid) = (FetchOutcomeQueue.notFound, [], 1) ∧
    fetch_product_main core pid (env pid) = (sentinelMain pid, [], true) ∧
    (errRecordQueue pid ∈ (runBatchQueue core env st batch).errorT ∧
     statusOf (runBatchQueue core env st batch).queue pid =
       some (Status.error, some "404 Not Found")) ∧
    (sentinelMain pid ∈ (runBatchMain core env st batch).errorT ∧
     statusOf (runBatchMain core env st batch).queue pid =
       some (Status.error, some "Failed after retries")) := by
  have h1 : fetch_product_queue core pid (env pid) =
      (FetchOutcomeQueue.notFound, [], 1) := by
    rw [henv]; exact fetch_product_queue_404 core pid tr
  have h2 : fetch_product_main core pid (env pid) =
      (sentinelMain pid, [], true) := by
    rw [henv]; exact fetch_product_main_404 core pid tr
  have ho : outcomeQueue core env pid = FetchOutcomeQueue.notFound := by
    rw [outcomeQueue, h1]
  have hsent : resultMain core env pid = sentinelMain pid := by
    rw [resultMain, h2]
  exact ⟨h1, h2, runBatchQueue_notFound_routing core env st batch pid hmem hnd hq ho,
    runBatchMain_sentinel_routing core env st batch pid hmem hnd hq hsent⟩

/-- C3 (witness): the amended theorem applied at the concrete 404
environment for id 2. -/
theorem C3_notFound_amended_witness :
    let env : Int → List AttemptResult := fun _ => [AttemptResult.status 404]
    let st := PState.mk [((2 : Int), Status.pending, none)] [] []
    fetch_product_queue (fun s => s) 2 (env 2) = (FetchOutcomeQueue.notFound, [], 1) ∧
    fetch_product_main (fun s => s) 2 (env 2) = (sentinelMain 2, [], true) ∧
    (errRecordQueue 2 ∈ (runBatchQueue (fun s => s) env st [2]).errorT ∧
     statusOf (runBatchQueue (fun s => s) env st [2]).queue 2 =
       some (Status.error, some "404 Not Found")) ∧
    (sentinelMain 2 ∈ (runBatchMain (fun s => s) env st [2]).errorT ∧
     statusOf (runBatchMain (fun s => s) env st [2]).queue 2 =
       some (Status.error, some "Failed after retries")) :=
  C3_notFound_amended (fun s => s) (fun _ => [AttemptResult.status 404])
    (PState.mk [((2 : Int), Status.pending, none)] [] []) [2] 2 [] rfl
    (by decide) (by decide) (by decide)

/-- C4 (counterexample): in script 1, a transport-level exception on the
first attempt (a transient outcome per the claim) is swallowed by
`except Exception: pass` and the next attempt starts with *no* backoff
sleep: the whole run sleeps `[]` where the claim requires a sleep of
`2 * 1` seconds after the first transient outcome. -/
theorem C4_counterexample :
    fetch_product_main (fun s => s) 7
      [AttemptResult.exn, AttemptResult.ok (Payload.mk none none none none [])] =
      (buildRecordMain (fun s => s) 7 (Payload.mk none none none none []), [], false) := by
  decide

/-- C4 (amended): in script 2 every transient outcome — a status in
{429,500,502,503,504} *or* an exception — is followed by a sleep of
`2 * attempt` (1-based) seconds, the sleep sequence is always
non-decreasing, fetching stops after at most (and, under unbroken
transient outcomes, exactly) `RETRIES` attempts with sleeps
`[2,4,6,8,10]`, and any other non-200, non-404 status aborts retrying
immediately in both scripts.  In script 1 the same holds for transient
*HTTP statuses* (sleeps `2*(attempt+1)`, 0-based attempt), but a
transport-level exception is retried with *no* sleep at all. -/
theorem C4_backoff_amended :
    (∀ (core : String → String) (pid : Int) (tr : List AttemptResult),
      List.Chain' (· ≤ ·) (fetch_product_queue core pid tr).2.1) ∧
    (∀ (core : String → String) (pid : Int) (tr : List AttemptResult),
      (fetch_product_queue core pid tr).2.2 ≤ RETRIES) ∧
    (∀ (core : String → String) (pid : Int) (tr : List AttemptResult),
      (∀ r ∈ tr, isTransientStep r = true) → RETRIES ≤ tr.length →
      fetch_product_queue core pid tr =
        (FetchOutcomeQueue.exhausted, [2, 4, 6, 8, 10], RETRIES)) ∧
    (∀ (core : String → String) (pid : Int) (c : Nat) (tr : List AttemptResult),
      ¬ c = 404 → transient c = false →
      fetch_product_queue core pid (AttemptResult.status c :: tr) =
        (FetchOutcomeQueue.exhausted, [], 1) ∧
      fetch_product_main core pid (AttemptResult.status c :: tr) =
        (sentinelMain pid, [], true)) ∧
    (∀ (core : String → String) (pid : Int) (tr : List AttemptResult),
      (∀ r ∈ tr, ∃ c, r = AttemptResult.status c ∧ transient c = true) →
      RETRIES ≤ tr.length →
      fetch_product_main core pid tr = (sentinelMain pid, [2, 4, 6, 8, 10], true)) ∧
    (∀ (core : String → String) (pid : Int) (p : Payload) (k : Nat), k < RETRIES →
      fetch_product_main core pid
        (List.replicate k AttemptResult.exn ++ [AttemptResult.ok p]) =
        (buildRecordMain core pid p, [], false)) := by
  refine ⟨?_, ?_, ?_, ?_, ?_, ?_⟩
  · intro core pid tr
    exact (fetchGoQueue_sleeps_bounds core pid tr 1 RETRIES).1
  · intro core pid tr
    exact fetchGoQueue_attempts_le core pid tr 1 RETRIES
  · intro core pid tr htr hlen
    rw [fetch_product_queue, fetchGoQueue_all_transient core pid RETRIES tr 1 htr hlen]
    rfl
  · intro core pid c tr h404 hc
    constructor
    · rw [fetch_product_queue]
      exact fetchGoQueue_hard_abort core pid c tr 1 4 h404 hc
    · rw [fetch_product_main]
      exact fetchGoMain_hard_abort core pid c tr 0 4 hc
  · intro core pid tr htr hlen
    rw [fetch_product_main,
      fetchGoMain_all_transient_status core pid RETRIES tr 0 htr hlen]
    rfl
  · intro core pid p k hk
    rw [fetch_product_main]
    exact fetchGoMain_exn_replicate core pid k RETRIES 0 p hk

/-- C4 (witness): the amended theorem's all-transient conjunct applied to
five consecutive 503 responses: exactly `RETRIES` attempts with the
non-decreasing sleeps 2,4,6,8,10. -/
theorem C4_backoff_amended_witness :
    fetch_product_queue (fun s => s) 1
      [AttemptResult.status 503, AttemptResult.status 503, AttemptResult.status 503,
       AttemptResult.status 503, AttemptResult.status 503] =
      (FetchOutcomeQueue.exhausted, [2, 4, 6, 8, 10], RETRIES) :=
  C4_backoff_amended.2.2.1 (fun s => s) 1
    [AttemptResult.status 503, AttemptResult.status 503, AttemptResult.status 503,
     AttemptResult.status 503, AttemptResult.status 503]
    (by decide) (by decide)

/-- C5 (counterexample): a 200 response whose payload is entirely null
(no name, no url_key, no price, no description, no images) is routed by
script 1 to *success* storage, marked `done`, and error storage stays
empty: after normalization `name` and `description` are `""` (not null)
and `missing_fields` is a string, so the orchestrator's all-None test is
false and the "fully empty" success is **not** routed to error storage as
the claim states. -/
theorem C5_counterexample :
    let st := runBatchMain (fun s => s)
      (fun _ => [AttemptResult.ok (Payload.mk none none none none [])])
      (PState.mk [((5 : Int), Status.pending, none)] [] []) [5]
    st.errorT = [] ∧
    buildRecordMain (fun s => s) 5 (Payload.mk none none none none []) ∈ st.product ∧
    statusOf st.queue 5 = some (Status.done, none) := by
  decide

/-- C5 (amended): script 1's emptiness test (`allNoneNonId`, ranging over
every non-id key including `missing_fields`) is true exactly for the
fetch-failure sentinel and false for *every* normalized 200 record —
normalization maps a null name/description to `""` and always sets
`missing_fields` to a string — so a `Success` outcome is always routed to
success storage and marked `done`, never to error storage, even when every
payload field is null.  (Script 2 has no emptiness check at all: every
parsed 200 record goes to success storage.) -/
theorem C5_empty_success_amended (core : String → String)
    (env : Int → List AttemptResult) (st : PState) (batch : List Int) (pid : Int)
    (p : Payload) (tr : List AttemptResult)
    (henv : env pid = AttemptResult.ok p :: tr)
    (hmem : pid ∈ batch) (hnd : batch.Nodup)
    (hq : (statusOf st.queue pid).isSome = true) :
    allNoneNonId (buildRecordMain core pid p) = false ∧
    allNoneNonId (sentinelMain pid) = true ∧
    buildRecordMain core pid p ∈ (runBatchMain core env st batch).product ∧
    statusOf (runBatchMain core env st batch).queue pid = some (Status.done, none) ∧
    rowsWithId (runBatchMain core env st batch).errorT pid =
      rowsWithId st.errorT pid := by
  have hres : resultMain core env pid = buildRecordMain core pid p := by
    rw [resultMain, henv, fetch_product_main_ok]
  obtain ⟨h1, h2, h3⟩ := runBatchMain_ok_routing core env st batch pid p hmem hnd hq hres
  exact ⟨allNoneNonId_buildRecordMain core pid p, allNoneNonId_sentinelMain pid,
    h1, h2, h3⟩

/-- C5 (witness): the amended theorem applied at the concrete all-null
payload for id 5. -/
theorem C5_empty_success_amended_witness :
    let env : Int → List AttemptResult :=
      fun _ => [AttemptResult.ok (Payload.mk none none none none [])]
    let st := PState.mk [((5 : Int), Status.pending, none)] [] []
    allNoneNonId (buildRecordMain (fun s => s) 5 (Payload.mk none none none none [])) =
      false ∧
    allNoneNonId (sentinelMain 5) = true ∧
    buildRecordMain (fun s => s) 5 (Payload.mk none none none none []) ∈
      (runBatchMain (fun s => s) env st [5]).product ∧
    statusOf (runBatchMain (fun s => s) env st [5]).queue 5 =
      some (Status.done, none) ∧
    rowsWithId (runBatchMain (fun s => s) env st [5]).errorT 5 =
      rowsWithId st.errorT 5 :=
  C5_empty_success_amended (fun s => s)
    (fun _ => [AttemptResult.ok (Payload.mk none none none none [])])
    (PState.mk [((5 : Int), Status.pending, none)] [] []) [5] 5
    (Payload.mk none none none none []) [] rfl (by decide) (by decide) (by decide)

/-- C6 (confirmed): the batch upsert is idempotent and last-write-wins.
An empty batch is a no-op; upserting the same record twice equals
upserting it once and leaves exactly one row for that id holding that
record; and on a primary-key conflict (a second record with the same id)
the stored row is exactly the new record — every non-key column
overwritten. -/
theorem C6_upsert_spec (t : Table) (r r2 : PyRecord) (hid : r2.id = r.id)
    (hnd : (idsOf t).Nodup) :
    insert_batch t [] = t ∧
    insert_batch (insert_batch t [r]) [r] = insert_batch t [r] ∧
    rowsWithId (insert_batch (insert_batch t [r]) [r]) r.id = [r] ∧
    rowsWithId (insert_batch (insert_batch t [r]) [r2]) r.id = [r2] := by
  refine ⟨rfl, ?_, ?_, ?_⟩
  · show upsertOne (upsertOne t r) r = upsertOne t r
    exact upsertOne_idem t r
  · show rowsWithId (upsertOne (upsertOne t r) r) r.id = [r]
    exact rowsWithId_upsertOne_self _ r (idsOf_nodup_upsertOne t r hnd)
  · show rowsWithId (upsertOne (upsertOne t r) r2) r.id = [r2]
    rw [← hid]
    exact rowsWithId_upsertOne_self _ r2 (idsOf_nodup_upsertOne t r hnd)

/-- C6 (witness): the upsert contract at concrete records sharing id 1 —
the second upsert overwrites every non-key column of the first. -/
theorem C6_upsert_spec_witness :
    insert_batch [] [] = ([] : Table) ∧
    insert_batch (insert_batch [] [sentinelMain 1]) [sentinelMain 1] =
      insert_batch [] [sentinelMain 1] ∧
    rowsWithId (insert_batch (insert_batch [] [sentinelMain 1]) [sentinelMain 1])
      (sentinelMain 1).id = [sentinelMain 1] ∧
    rowsWithId (insert_batch (insert_batch [] [sentinelMain 1]) [errRecordQueue 1])
      (sentinelMain 1).id = [errRecordQueue 1] :=
  C6_upsert_spec [] (sentinelMain 1) (errRecordQueue 1) rfl (by decide)

/-- C7 (confirmed): queue initialization is idempotent.  Re-initializing
with the same id set is the identity (so row count and statuses are
unchanged); each absent id is inserted with status `pending`; existing
rows are untouched (the new queue is the old queue plus appended rows, and
the status of any already-present id is preserved); and re-initializing
with a superset again only appends and preserves every existing row's
status. -/
theorem C7_init_queue_spec (q : Queue) (ids more : List Int) :
    init_queue (init_queue q ids) ids = init_queue q ids ∧
    (∀ pid ∈ ids, statusOf q pid = none →
      statusOf (init_queue q ids) pid = some (Status.pending, none)) ∧
    (∃ ext, init_queue q ids = q ++ ext) ∧
    (∀ pid, (statusOf q pid).isSome = true →
      statusOf (init_queue q ids) pid = statusOf q pid) ∧
    (∃ ext, init_queue (init_queue q ids) (ids ++ more) = init_queue q ids ++ ext) ∧
    (∀ pid, ((statusOf (init_queue q ids) pid)).isSome = true →
      statusOf (init_queue (init_queue q ids) (ids ++ more)) pid =
        statusOf (init_queue q ids) pid) := by
  refine ⟨init_queue_idem q ids, ?_, init_queue_append ids q, ?_,
    init_queue_append (ids ++ more) (init_queue q ids), ?_⟩
  · intro pid hm ha
    exact statusOf_init_of_absent ids q pid hm ha
  · intro pid h
    exact statusOf_init_of_isSome q ids pid h
  · intro pid h
    exact statusOf_init_of_isSome (init_queue q ids) (ids ++ more) pid h

/-- C7 (witness): initialization at the concrete empty queue and id set
`[3]`: the absent id is inserted with status `pending`. -/
theorem C7_init_queue_spec_witness :
    statusOf (init_queue [] [3]) 3 = some (Status.pending, none) :=
  (C7_init_queue_spec [] [3] []).2.1 3 (by decide) rfl

/-- C8 (counterexample): for a payload whose `price` is the number 0 (all
other fields present and non-empty), script 2 lists `price` in
`missing_fields` — its `not v` test treats the number 0 as missing — while
the claim (null-or-empty, so "a numeric price of 0 is not missing")
requires the empty string, as the claim-side computation confirms. -/
theorem C8_counterexample :
    (buildRecordQueue (fun s => s) 1
      (Payload.mk (some "abc") (some "k") (some 0) (some "d") [some "u"])).missing_fields =
      PyVal.vstr "price" ∧
    claimMissingFields "abc" (some "k") (some 0) "d" (some "u") = "" := by
  decide

/-- C8 (amended): script 1's `missing_fields` is exactly the claim's
specification — the comma-joined names of those non-id fields that are
null or the empty string after extraction (a numeric price, even 0, is
never "empty"), in declared order, `""` when nothing is missing; script
2's `missing_fields` instead uses Python falsiness, which additionally
counts a price of 0 (null-or-zero) as missing. -/
theorem C8_missing_fields_amended (core : String → String) (pid : Int) (p : Payload) :
    (buildRecordMain core pid p).missing_fields =
      PyVal.vstr (claimMissingFields (clean_text core p.name) p.url_key p.price
        (clean_text core p.description) (imageUrlOf p)) ∧
    (buildRecordQueue core pid p).missing_fields =
      PyVal.vstr (falsyMissingFields (clean_text core p.name) p.url_key p.price
        (clean_text core p.description) (imageUrlOf p)) := by
  obtain ⟨pn, pu, pp, pd, pi⟩ := p
  constructor
  · simp only [buildRecordMain, missingOf, preItems, claimMissingFields]
    congr 1
    rcases pi with _ | ⟨u, urest⟩
    · cases pu <;> cases pp <;>
        simp [optStr, optInt, pyIsNoneOrEmpty, imageUrlOf, List.filter] <;>
        split_ifs <;> simp_all
    · rcases u with _ | s
      · cases pu <;> cases pp <;>
          simp [optStr, optInt, pyIsNoneOrEmpty, imageUrlOf, List.filter] <;>
          split_ifs <;> simp_all
      · cases pu <;> cases pp <;>
          simp [optStr, optInt, pyIsNoneOrEmpty, imageUrlOf, List.filter] <;>
          split_ifs <;> simp_all
  · simp only [buildRecordQueue, missingOf, preItems, falsyMissingFields]
    congr 1
    rcases pi with _ | ⟨u, urest⟩
    · cases pu <;> cases pp <;>
        simp [optStr, optInt, pyFalsy, imageUrlOf, List.filter] <;>
        split_ifs <;> simp_all
    · rcases u with _ | s
      · cases pu <;> cases pp <;>
          simp [optStr, optInt, pyFalsy, imageUrlOf, List.filter] <;>
          split_ifs <;> simp_all
      · cases pu <;> cases pp <;>
          simp [optStr, optInt, pyFalsy, imageUrlOf, List.filter] <;>
          split_ifs <;> simp_all

/-- C9 (counterexample): starting from a queue initialized with id 7, a
first run in which id 7 gets a 404 leaves an error row and status
`error`; the next run re-selects id 7 (it is retry-eligible), the fetch
succeeds, and the run marks it `done` — but the error row is never
deleted, so the final, reachable state has id 7 present in ErrorRecord
storage while its queue status is `done`, violating the claimed
invariant. -/
theorem C9_counterexample :
    let env1 : Int → List AttemptResult := fun _ => [AttemptResult.status 404]
    let env2 : Int → List AttemptResult := fun _ =>
      [AttemptResult.ok (Payload.mk (some "n") (some "k") (some 5) (some "d") [some "u"])]
    let s1 := runOnceQueue (fun s => s) env1
      (PState.mk (init_queue [] [7]) [] [])
    let s2 := runOnceQueue (fun s => s) env2 s1
    fetch_pending_or_error_ids s1.queue = [7] ∧
    (∃ r ∈ s2.errorT, r.id = 7) ∧
    statusOf s2.queue 7 = some (Status.done, none) := by
  decide

/-- C9 (amended): the invariant holds within one batch for freshly added
error rows — if an id had no row in error storage before a script-2 batch
and has one after it, then its queue status at the end of that batch is
`error` (with `"404 Not Found"`) — but error rows are never deleted, so
across runs an id that errors once and later succeeds keeps its error row
while its status becomes `done`. -/
theorem C9_error_row_amended (core : String → String)
    (env : Int → List AttemptResult) (st : PState) (batch : List Int) (pid : Int)
    (hnd : batch.Nodup)
    (hq : (statusOf st.queue pid).isSome = true)
    (hfresh : rowsWithId st.errorT pid = [])
    (hrow : ∃ r ∈ (runBatchQueue core env st batch).errorT, r.id = pid) :
    statusOf (runBatchQueue core env st batch).queue pid =
      some (Status.error, some "404 Not Found") := by
  obtain ⟨r, hr, hrid⟩ := hrow
  have hr' : r ∈ insert_batch st.errorT (errRecsQueue core env batch) := hr
  rcases insert_batch_origin _ _ r hr' with h1 | h1
  · exfalso
    have hmem : r ∈ rowsWithId st.errorT pid :=
      List.mem_filter.2 ⟨h1, by simp [hrid]⟩
    rw [hfresh] at hmem
    cases hmem
  · rcases (mem_errRecsQueue_iff core env batch r).1 h1 with ⟨pid2, hpid2, ho2, hreq⟩
    have hpe : pid2 = pid := by
      rw [hreq] at hrid
      exact hrid
    subst hpe
    exact (runBatchQueue_notFound_routing core env st batch pid2 hpid2 hnd hq ho2).2

/-- C9 (witness): the amended per-batch invariant applied at the concrete
404 batch for id 2: the fresh error row implies status `error`. -/
theorem C9_error_row_amended_witness :
    statusOf (runBatchQueue (fun s => s) (fun _ => [AttemptResult.status 404])
      (PState.mk [((2 : Int), Status.pending, none)] [] []) [2]).queue 2 =
      some (Status.error, some "404 Not Found") :=
  C9_error_row_amended (fun s => s) (fun _ => [AttemptResult.status 404])
    (PState.mk [((2 : Int), Status.pending, none)] [] []) [2] 2
    (by decide) (by decide) (by decide) (by decide)

/-- C10 (confirmed): script 1's `fetch_product` is total at its
interface.  In the model every raisable path (`resp.json()` failures,
transport errors) is an `exn` step of the environment trace and is
swallowed by the loop's `except Exception: pass`, so for *every* input id
and every environment trace the function returns a dictionary: its `id`
field always equals the input id, and the returned record is either the
all-None failure sentinel (whose every non-id field, `missing_fields`
included, is None) or a normalized 200 record. -/
theorem C10_fetch_product_main_total (core : String → String) (pid : Int)
    (tr : List AttemptResult) :
    (fetch_product_main core pid tr).1.id = pid ∧
    ((fetch_product_main core pid tr).2.2 = true →
      (fetch_product_main core pid tr).1 = sentinelMain pid) ∧
    ((fetch_product_main core pid tr).2.2 = false →
      ∃ p, (fetch_product_main core pid tr).1 = buildRecordMain core pid p) ∧
    (sentinelMain pid).name = PyVal.vnone ∧
    (sentinelMain pid).url_key = PyVal.vnone ∧
    (sentinelMain pid).price = PyVal.vnone ∧
    (sentinelMain pid).description = PyVal.vnone ∧
    (sentinelMain pid).image_url = PyVal.vnone ∧
    (sentinelMain pid).missing_fields = PyVal.vnone :=
  ⟨fetch_product_main_id core pid tr, (fetch_product_main_flag core pid tr).1,
    (fetch_product_main_flag core pid tr).2, rfl, rfl, rfl, rfl, rfl, rfl⟩

/-- C10 (witness): totality at a concrete trace that raises on the only
attempt: the returned dict still carries the input id. -/
theorem C10_fetch_product_main_total_witness :
    (fetch_product_main (fun s => s) 4 [AttemptResult.exn]).1.id = 4 :=
  (C10_fetch_product_main_total (fun s => s) 4 [AttemptResult.exn]).1
